import Mathlib

/-!
Verification of the theatre seat-reservation core: a shallow embedding of the
schema (tables, unique constraints, foreign keys), the three consistency
triggers, the row-level access policies, the layout regeneration routine,
and the privileged account-provisioning request handler.

Identifiers (`uuid` in the schema) are modelled as `Nat`; each table is a
list of rows; triggers and policies are translated function by function from
the SQL migration; the provisioning handler is translated from the edge
function source.
-/

set_option maxHeartbeats 1000000

/-- `app_role` enum: `CREATE TYPE public.app_role AS ENUM ('admin', 'user')`. -/
inductive AppRole where
  | admin
  | user
deriving DecidableEq, Repr

/-- A row of `public.seats`:
`{id, seat_layout_id, row_num, col_num, is_booked}` (timestamps omitted). -/
structure SeatRow where
  sid : Nat
  seat_layout_id : Nat
  row_num : Nat
  col_num : Nat
  is_booked : Bool
deriving DecidableEq, Repr

/-- A row of `public.bookings`: `{id, user_id, seat_id}` (timestamp omitted). -/
structure BookingRow where
  bid : Nat
  user_id : Nat
  seat_id : Nat
deriving DecidableEq, Repr

/-- A row of `public.user_roles`: `{user_id, role}` (surrogate id omitted). -/
structure RoleRow where
  user_id : Nat
  role : AppRole
deriving DecidableEq, Repr

/-- A row of `public.seat_layout`: `{id, total_rows, total_columns}`
(name and timestamps omitted). -/
structure LayoutRow where
  lid : Nat
  total_rows : Nat
  total_columns : Nat
deriving DecidableEq, Repr

/-- The relational store: the five tables of the schema (together with
`auth.users`, kept as a list of user ids) plus a fresh-id allocator `nextId`
standing in for `gen_random_uuid()` on the `seats` primary key. -/
structure DB where
  users : List Nat
  user_roles : List RoleRow
  seat_layout : List LayoutRow
  seats : List SeatRow
  bookings : List BookingRow
  nextId : Nat
deriving DecidableEq, Repr

/-- `public.has_role(_user_id, _role)`:
`EXISTS (SELECT 1 FROM user_roles WHERE user_id = _user_id AND role = _role)`. -/
def has_role (db : DB) (uid : Nat) (r : AppRole) : Bool :=
  db.user_roles.any fun row => row.user_id == uid && decide (row.role = r)

/-- Trigger function `public.mark_seat_booked` (AFTER INSERT on bookings):
`UPDATE seats SET is_booked = true WHERE id = NEW.seat_id`. -/
def mark_seat_booked (seats : List SeatRow) (seatId : Nat) : List SeatRow :=
  seats.map fun s => if s.sid = seatId then { s with is_booked := true } else s

/-- Trigger function `public.free_seat_on_delete` (AFTER DELETE on bookings):
`UPDATE seats SET is_booked = false WHERE id = OLD.seat_id`. -/
def free_seat_on_delete (seats : List SeatRow) (seatId : Nat) : List SeatRow :=
  seats.map fun s => if s.sid = seatId then { s with is_booked := false } else s

/-- Trigger function `public.handle_booking_update` (AFTER UPDATE on bookings):
`IF OLD.seat_id <> NEW.seat_id THEN` free the old seat, book the new one. -/
def handle_booking_update (seats : List SeatRow) (oldSeat newSeat : Nat) :
    List SeatRow :=
  if oldSeat ≠ newSeat then
    mark_seat_booked (free_seat_on_delete seats oldSeat) newSeat
  else
    seats

/-- `public.user_has_booking(_user_id)`:
`EXISTS (SELECT 1 FROM bookings WHERE user_id = _user_id)`. -/
def user_has_booking (db : DB) (uid : Nat) : Bool :=
  db.bookings.any fun b => b.user_id == uid

/-- `public.seat_is_available(_seat_id)`:
`SELECT NOT is_booked FROM seats WHERE id = _seat_id` — a scalar subquery,
so `none` (SQL NULL) when no such seat exists. -/
def seat_is_available (db : DB) (seatId : Nat) : Option Bool :=
  (db.seats.find? fun s => s.sid == seatId).map fun s => !s.is_booked

/-- In a `WITH CHECK` clause a NULL result behaves as a rejection: only a
definite `true` admits the row. -/
def optIsTrue : Option Bool → Bool
  | some true => true
  | _ => false

/-- The INSERT policy "Users can book if no existing booking and seat
available": `user_id = auth.uid() AND NOT user_has_booking(auth.uid()) AND
seat_is_available(seat_id)`. -/
def booking_insert_user_policy (db : DB) (caller : Nat) (row : BookingRow) :
    Bool :=
  row.user_id == caller && !user_has_booking db caller &&
    optIsTrue (seat_is_available db row.seat_id)

/-- Permissive RLS policies are disjoined: the user INSERT policy above, or
the FOR ALL policy "Admins can manage all bookings". -/
def booking_insert_policy (db : DB) (caller : Nat) (row : BookingRow) : Bool :=
  booking_insert_user_policy db caller row ||
    has_role db caller AppRole.admin

/-- Schema constraints checked on `INSERT INTO bookings`: primary-key
freshness, `UNIQUE(user_id)`, `UNIQUE(seat_id)`, and the foreign keys
`seat_id REFERENCES seats(id)` and `user_id REFERENCES auth.users(id)`. -/
def bookingConstraintsOk (db : DB) (row : BookingRow) : Bool :=
  !(db.bookings.any fun b => b.bid == row.bid) &&
  !(db.bookings.any fun b => b.user_id == row.user_id) &&
  !(db.bookings.any fun b => b.seat_id == row.seat_id) &&
  (db.seats.any fun s => s.sid == row.seat_id) &&
  (db.users.any fun u => u == row.user_id)

/-- A committed `INSERT INTO bookings` by `caller`: the RLS policy and the
schema constraints must pass, and the AFTER INSERT trigger
`mark_seat_booked` runs in the same transaction.  `none` models a rejected
(rolled-back) insert, which leaves every table unchanged. -/
def insertBooking (db : DB) (caller : Nat) (row : BookingRow) : Option DB :=
  if booking_insert_policy db caller row && bookingConstraintsOk db row then
    some { db with
      bookings := row :: db.bookings,
      seats := mark_seat_booked db.seats row.seat_id }
  else
    none

/-- Row-level AFTER DELETE triggers: `free_seat_on_delete` fires once for
each deleted booking row. -/
def freeSeats (seats : List SeatRow) (bs : List BookingRow) : List SeatRow :=
  bs.foldl (fun ss b => free_seat_on_delete ss b.seat_id) seats

/-- A committed `DELETE FROM bookings WHERE id = bookingId` — admin-only
under the policy "Admins can delete bookings"; the AFTER DELETE trigger
fires for each deleted row. -/
def deleteBooking (db : DB) (caller : Nat) (bookingId : Nat) : Option DB :=
  if has_role db caller AppRole.admin then
    some { db with
      bookings := db.bookings.filter fun b => !(b.bid == bookingId),
      seats := freeSeats db.seats
        (db.bookings.filter fun b => b.bid == bookingId) }
  else
    none

/-- A committed `UPDATE bookings SET seat_id = newSeatId WHERE id =
bookingId` (the admin panel's "Change seat") — admin-only; checks
`UNIQUE(seat_id)` against the other rows and the seat foreign key; the
AFTER UPDATE trigger `handle_booking_update` fires on the updated row. -/
def updateBookingSeat (db : DB) (caller : Nat) (bookingId newSeatId : Nat) :
    Option DB :=
  if has_role db caller AppRole.admin then
    match db.bookings.find? (fun b => b.bid == bookingId) with
    | some old =>
        if !(db.bookings.any fun b =>
              !(b.bid == bookingId) && b.seat_id == newSeatId) &&
           (db.seats.any fun s => s.sid == newSeatId) then
          some { db with
            bookings := db.bookings.map fun b =>
              if b.bid == bookingId then { b with seat_id := newSeatId } else b,
            seats := handle_booking_update db.seats old.seat_id newSeatId }
        else none
    | none => some db
  else none

/-- Deleting an identity (`auth.users` row): `ON DELETE CASCADE` removes the
user's bookings and role rows, and the AFTER DELETE booking trigger fires
for each cascaded booking deletion. -/
def cascadeDeleteUser (db : DB) (uid : Nat) : DB :=
  { db with
    users := db.users.filter fun u => !(u == uid),
    user_roles := db.user_roles.filter fun r => !(r.user_id == uid),
    bookings := db.bookings.filter fun b => !(b.user_id == uid),
    seats := freeSeats db.seats
      (db.bookings.filter fun b => b.user_id == uid) }

/-- A committed `DELETE FROM seats WHERE id = seatId` (admin-only under
"Admins can manage seats"): `ON DELETE CASCADE` removes bookings that
reference the seat, and the AFTER DELETE booking trigger fires for each. -/
def cascadeDeleteSeat (db : DB) (caller : Nat) (seatId : Nat) : Option DB :=
  if has_role db caller AppRole.admin then
    some { db with
      seats := freeSeats (db.seats.filter fun s => !(s.sid == seatId))
        (db.bookings.filter fun b => b.seat_id == seatId),
      bookings := db.bookings.filter fun b => !(b.seat_id == seatId) }
  else none

/-- The cell grid traversed by the nested loops
`FOR r IN 1.._rows LOOP FOR c IN 1.._cols LOOP ...` in
`generate_seats_for_layout`. -/
def gridCells (rows cols : Nat) : List (Nat × Nat) :=
  (List.range rows).flatMap fun r =>
    (List.range cols).map fun c => (r + 1, c + 1)

/-- One loop body iteration of `generate_seats_for_layout`:
`INSERT INTO seats (seat_layout_id, row_num, col_num) VALUES (...) ON
CONFLICT (seat_layout_id, row_num, col_num) DO NOTHING`, with the fresh-id
allocator threaded through. -/
def insertSeatCell (layoutId : Nat) :
    List SeatRow × Nat → Nat × Nat → List SeatRow × Nat
  | (ss, nid), cell =>
    if ss.any fun s =>
        s.seat_layout_id == layoutId && s.row_num == cell.1 &&
          s.col_num == cell.2 then
      (ss, nid)
    else
      (ss ++ [{ sid := nid, seat_layout_id := layoutId,
                row_num := cell.1, col_num := cell.2, is_booked := false }],
       nid + 1)

/-- `public.generate_seats_for_layout(_layout_id)`: look up the layout
geometry, `DELETE FROM seats WHERE seat_layout_id = _layout_id AND
is_booked = false`, then insert the full grid skipping already-present
cells. -/
def generate_seats_for_layout (db : DB) (layoutId : Nat) : DB :=
  match db.seat_layout.find? (fun l => l.lid == layoutId) with
  | none => db
  | some lay =>
    let kept := db.seats.filter fun s =>
      !(s.seat_layout_id == layoutId) || s.is_booked
    let res := (gridCells lay.total_rows lay.total_columns).foldl
      (insertSeatCell layoutId) (kept, db.nextId)
    { db with seats := res.1, nextId := res.2 }

/-- The committed booking-affecting operations: booking insert / delete /
update, cascade deletes of users and seats, and layout regeneration.  The
admin freeze/unfreeze override on `seats.is_booked` is deliberately not a
step: it is the documented invariant-breaking escape hatch. -/
inductive Step : DB → DB → Prop where
  | insert (caller : Nat) (row : BookingRow) {db db' : DB} :
      insertBooking db caller row = some db' → Step db db'
  | delete (caller bookingId : Nat) {db db' : DB} :
      deleteBooking db caller bookingId = some db' → Step db db'
  | update (caller bookingId newSeatId : Nat) {db db' : DB} :
      updateBookingSeat db caller bookingId newSeatId = some db' → Step db db'
  | delUser (uid : Nat) {db : DB} : Step db (cascadeDeleteUser db uid)
  | delSeat (caller seatId : Nat) {db db' : DB} :
      cascadeDeleteSeat db caller seatId = some db' → Step db db'
  | regen (layoutId : Nat) {db : DB} :
      Step db (generate_seats_for_layout db layoutId)

/-- The composite key constrained by `UNIQUE(seat_layout_id, row_num,
col_num)` on `seats`. -/
def cellKey (s : SeatRow) : Nat × Nat × Nat :=
  (s.seat_layout_id, s.row_num, s.col_num)

/-- An admissible initial state: no bookings, every seat unbooked (the
migration generates the default layout's grid with `is_booked` defaulting
to false and an empty `bookings` table), seat primary keys distinct and
below the allocator, and the `UNIQUE(seat_layout_id, row_num, col_num)`
constraint satisfied. -/
def InitOk (db : DB) : Prop :=
  db.bookings = [] ∧
  (∀ s ∈ db.seats, s.is_booked = false) ∧
  (db.seats.map SeatRow.sid).Nodup ∧
  (∀ s ∈ db.seats, s.sid < db.nextId) ∧
  (db.seats.map cellKey).Nodup

/-- States reachable from an admissible initial state by committed
operations. -/
inductive Reachable : DB → Prop where
  | init {db : DB} : InitOk db → Reachable db
  | step {db db' : DB} : Reachable db → Step db db' → Reachable db'

/-- The inductive invariant: schema constraints (distinct seat ids below the
allocator, distinct seat cells, booking foreign key, `UNIQUE(user_id)`,
`UNIQUE(seat_id)`, distinct booking ids) together with the global
synchronization invariant `is_booked ⇔ a booking for the seat exists`. -/
structure DBInv (db : DB) : Prop where
  sidNodup : (db.seats.map SeatRow.sid).Nodup
  sidBound : ∀ s ∈ db.seats, s.sid < db.nextId
  cellNodup : (db.seats.map cellKey).Nodup
  fk : ∀ b ∈ db.bookings, ∃ s ∈ db.seats, s.sid = b.seat_id
  userNodup : (db.bookings.map BookingRow.user_id).Nodup
  seatNodup : (db.bookings.map BookingRow.seat_id).Nodup
  bidNodup : (db.bookings.map BookingRow.bid).Nodup
  sync : ∀ s ∈ db.seats,
    (s.is_booked = true ↔ ∃ b ∈ db.bookings, b.seat_id = s.sid)

/-- The row inserted for a not-yet-occupied grid cell: fresh id, the given
layout, `is_booked` defaulting to false. -/
def newSeat (layoutId nid : Nat) (cell : Nat × Nat) : SeatRow :=
  { sid := nid, seat_layout_id := layoutId, row_num := cell.1,
    col_num := cell.2, is_booked := false }

/-- Bool test that a seat's cell lies in the `rows × cols` grid. -/
def inGrid (rows cols : Nat) (s : SeatRow) : Bool :=
  decide (1 ≤ s.row_num) && decide (s.row_num ≤ rows) &&
    decide (1 ≤ s.col_num) && decide (s.col_num ≤ cols)

/-- Number of seat rows of layout `L` sitting at cell `(r, c)`. -/
def cellCount (ss : List SeatRow) (L r c : Nat) : Nat :=
  ss.countP fun s => s.seat_layout_id == L && s.row_num == r && s.col_num == c

/-! ## The provisioning endpoint (`supabase/functions/login/index.ts`) -/

/-- An identity credential in the authentication store (an `auth.users`
entry as created by `auth.admin.createUser`).  Strings are modelled as
character lists so that the handler's per-character case conversion
(JavaScript `toLowerCase`) is `List.map Char.toLower`. -/
structure AuthUser where
  uid : Nat
  email : List Char
  password : List Char
  email_confirm : Bool
deriving DecidableEq, Repr

/-- A row of `public.allowed_users`: `{email (UNIQUE), uti (UNIQUE)}`
(id and timestamp omitted). -/
structure AllowedUserRow where
  email : List Char
  uti : List Char
deriving DecidableEq, Repr

/-- The state touched by the provisioning endpoint. -/
structure ProvDB where
  auth_users : List AuthUser
  allowed_users : List AllowedUserRow
  user_roles : List RoleRow
  nextUid : Nat
deriving DecidableEq, Repr

/-- A provisioning request as the handler sees it: the resolved bearer
identity (`none` when `getUser` errors or yields no user), whether the
admin-role lookup itself errors (its `error` field is discarded, so an
errored lookup behaves as "no row"), and the parsed JSON body fields. -/
structure ProvRequest where
  authUser : Option Nat
  roleLookupFails : Bool
  email : Option (List Char)
  uti : Option (List Char)
  role : Option AppRole
deriving DecidableEq, Repr

/-- JavaScript falsiness of an optional string body field (`!email`):
absent or the empty string. -/
def strFalsy : Option (List Char) → Bool
  | none => true
  | some s => s.isEmpty

/-- `auth.admin.createUser({email, password, email_confirm: true})`: fails
on a duplicate email, otherwise adds a confirmed identity with a fresh id. -/
def createUser (d : ProvDB) (em pw : List Char) : Option (Nat × ProvDB) :=
  if d.auth_users.any fun u => u.email == em then none
  else some (d.nextUid,
    { d with
      auth_users := d.auth_users ++
        [{ uid := d.nextUid, email := em, password := pw,
           email_confirm := true }],
      nextUid := d.nextUid + 1 })

/-- `INSERT INTO allowed_users (email, uti)` under `UNIQUE(email)` and
`UNIQUE(uti)`: a conflicting insert adds no row (and the handler never
reads the returned error). -/
def insertAllowedUser (d : ProvDB) (em ut : List Char) : ProvDB :=
  if d.allowed_users.any fun a => a.email == em || a.uti == ut then d
  else { d with
    allowed_users := d.allowed_users ++ [{ email := em, uti := ut }] }

/-- `INSERT INTO user_roles (user_id, role)` under `UNIQUE(user_id, role)`:
a conflicting insert adds no row (error likewise ignored). -/
def insertUserRole (d : ProvDB) (uid : Nat) (r : AppRole) : ProvDB :=
  if d.user_roles.any fun x => x.user_id == uid && decide (x.role = r) then d
  else { d with user_roles := d.user_roles ++ [{ user_id := uid, role := r }] }

/-- The handler's HTTP status together with the resulting store. -/
structure ProvResult where
  status : Nat
  db : ProvDB
deriving DecidableEq, Repr

/-- The `add_user` edge function: 401 when `getUser` yields no user; 403
when the admin-role lookup errors or returns no row; 400 when `email` or
`uti` is falsy; then create the identity with the lower-cased email (500
on `authError`, aborting before any insert), insert the allow-list row and
the role row with their errors ignored, and return 200. -/
def add_user_handler (d : ProvDB) (req : ProvRequest) : ProvResult :=
  match req.authUser with
  | none => { status := 401, db := d }
  | some caller =>
    match (if req.roleLookupFails then none
           else d.user_roles.find? fun x =>
             x.user_id == caller && decide (x.role = AppRole.admin)) with
    | none => { status := 403, db := d }
    | some _ =>
      if strFalsy req.email || strFalsy req.uti then
        { status := 400, db := d }
      else
        match createUser d ((req.email.getD []).map Char.toLower)
            (req.uti.getD []) with
        | none => { status := 500, db := d }
        | some (uid, d1) =>
          { status := 200,
            db := insertUserRole
              (insertAllowedUser d1 ((req.email.getD []).map Char.toLower)
                (req.uti.getD []))
              uid (req.role.getD AppRole.user) }

/-- One provisioning request handled against the store. -/
inductive ProvStep : ProvDB → ProvDB → Prop where
  | handle (req : ProvRequest) {d : ProvDB} :
      ProvStep d (add_user_handler d req).db

/-- Stores reachable, via provisioning requests, from any initial store
whose allow-list secrets are pairwise distinct (such as the empty store). -/
inductive ProvReachable : ProvDB → Prop where
  | init {d : ProvDB} : (d.allowed_users.map AllowedUserRow.uti).Nodup →
      ProvReachable d
  | step {d d' : ProvDB} : ProvReachable d → ProvStep d d' → ProvReachable d'

/-! ## Small concrete stores used by the witness theorems -/

/-- One user, one free seat, no bookings. -/
def dbW0 : DB :=
  { users := [7], user_roles := [], seat_layout := [⟨0, 1, 1⟩],
    seats := [⟨1, 0, 1, 1, false⟩], bookings := [], nextId := 2 }

/-- `dbW0` after user 7 books seat 1. -/
def dbW1 : DB :=
  { users := [7], user_roles := [], seat_layout := [⟨0, 1, 1⟩],
    seats := [⟨1, 0, 1, 1, true⟩], bookings := [⟨5, 7, 1⟩], nextId := 2 }

/-- Two users racing for the single free seat. -/
def dbR0 : DB :=
  { users := [7, 8], user_roles := [], seat_layout := [⟨0, 1, 1⟩],
    seats := [⟨1, 0, 1, 1, false⟩], bookings := [], nextId := 2 }

/-- A 1×1 layout whose seat table holds an unbooked in-grid seat and a
booked seat outside the grid. -/
def dbG0 : DB :=
  { users := [], user_roles := [], seat_layout := [⟨0, 1, 1⟩],
    seats := [⟨3, 0, 1, 1, false⟩, ⟨5, 0, 2, 2, true⟩], bookings := [],
    nextId := 6 }

/-- One admin (user 9), one booked and one free seat, one booking. -/
def dbU : DB :=
  { users := [7], user_roles := [⟨9, .admin⟩], seat_layout := [⟨0, 1, 2⟩],
    seats := [⟨1, 0, 1, 1, true⟩, ⟨2, 0, 1, 2, false⟩],
    bookings := [⟨5, 7, 1⟩], nextId := 3 }

/-- `dbU` after the admin moves booking 5 from seat 1 to seat 2. -/
def dbU1 : DB :=
  { users := [7], user_roles := [⟨9, .admin⟩], seat_layout := [⟨0, 1, 2⟩],
    seats := [⟨1, 0, 1, 1, false⟩, ⟨2, 0, 1, 2, true⟩],
    bookings := [⟨5, 7, 2⟩], nextId := 3 }

/-- A provisioning store with one admin (user 1) and an empty allow-list. -/
def pdb0 : ProvDB :=
  { auth_users := [], allowed_users := [], user_roles := [⟨1, .admin⟩],
    nextUid := 10 }

/-- A provisioning store with one admin and an allow-list row already
holding the secret "s3cret". -/
def pdb9 : ProvDB :=
  { auth_users := [],
    allowed_users := [⟨"other@x.com".toList, "s3cret".toList⟩],
    user_roles := [⟨1, .admin⟩], nextUid := 10 }

/-- The normalization the specification prescribes for `email`: lower-cased
and trimmed of surrounding whitespace (stated here in the spec's words, to
be compared with what the handler actually stores). -/
def spec_normalize_email (em : List Char) : List Char :=
  (((em.map Char.toLower).dropWhile Char.isWhitespace).reverse.dropWhile
    Char.isWhitespace).reverse

/-! ## Elementary facts about the seat-update triggers -/

theorem setFlag_sid (s : SeatRow) (v : Bool) :
    ({ s with is_booked := v } : SeatRow).sid = s.sid := rfl

theorem setFlag_cellKey (s : SeatRow) (v : Bool) :
    cellKey { s with is_booked := v } = cellKey s := rfl

theorem mark_map_sid (ss : List SeatRow) (i : Nat) :
    (mark_seat_booked ss i).map SeatRow.sid = ss.map SeatRow.sid := by
  simp only [mark_seat_booked, List.map_map]
  refine List.map_congr_left fun s _ => ?_
  by_cases h : s.sid = i <;> simp [h]

theorem free_map_sid (ss : List SeatRow) (i : Nat) :
    (free_seat_on_delete ss i).map SeatRow.sid = ss.map SeatRow.sid := by
  simp only [free_seat_on_delete, List.map_map]
  refine List.map_congr_left fun s _ => ?_
  by_cases h : s.sid = i <;> simp [h]

theorem mark_map_cellKey (ss : List SeatRow) (i : Nat) :
    (mark_seat_booked ss i).map cellKey = ss.map cellKey := by
  simp only [mark_seat_booked, List.map_map]
  refine List.map_congr_left fun s _ => ?_
  by_cases h : s.sid = i <;> simp [h, cellKey]

theorem free_map_cellKey (ss : List SeatRow) (i : Nat) :
    (free_seat_on_delete ss i).map cellKey = ss.map cellKey := by
  simp only [free_seat_on_delete, List.map_map]
  refine List.map_congr_left fun s _ => ?_
  by_cases h : s.sid = i <;> simp [h, cellKey]

theorem handle_map_sid (ss : List SeatRow) (o n : Nat) :
    (handle_booking_update ss o n).map SeatRow.sid = ss.map SeatRow.sid := by
  unfold handle_booking_update
  by_cases h : o ≠ n <;> simp [h, mark_map_sid, free_map_sid]

theorem handle_map_cellKey (ss : List SeatRow) (o n : Nat) :
    (handle_booking_update ss o n).map cellKey = ss.map cellKey := by
  unfold handle_booking_update
  by_cases h : o ≠ n <;> simp [h, mark_map_cellKey, free_map_cellKey]

theorem freeSeats_nil (ss : List SeatRow) : freeSeats ss [] = ss := rfl

theorem freeSeats_cons (ss : List SeatRow) (b : BookingRow)
    (bs : List BookingRow) :
    freeSeats ss (b :: bs) = freeSeats (free_seat_on_delete ss b.seat_id) bs :=
  rfl

theorem freeSeats_map_sid (bs : List BookingRow) (ss : List SeatRow) :
    (freeSeats ss bs).map SeatRow.sid = ss.map SeatRow.sid := by
  induction bs generalizing ss with
  | nil => rfl
  | cons b bs ih => rw [freeSeats_cons, ih, free_map_sid]

theorem freeSeats_map_cellKey (bs : List BookingRow) (ss : List SeatRow) :
    (freeSeats ss bs).map cellKey = ss.map cellKey := by
  induction bs generalizing ss with
  | nil => rfl
  | cons b bs ih => rw [freeSeats_cons, ih, free_map_cellKey]

/-- Firing the delete trigger once per removed booking amounts to clearing
the flag of exactly the seats referenced by some removed booking. -/
theorem freeSeats_eq_map (bs : List BookingRow) (ss : List SeatRow) :
    freeSeats ss bs = ss.map fun s =>
      if bs.any (fun b => b.seat_id == s.sid) then
        { s with is_booked := false } else s := by
  induction bs generalizing ss with
  | nil => simp [freeSeats_nil]
  | cons b bs ih =>
    rw [freeSeats_cons, ih]
    unfold free_seat_on_delete
    rw [List.map_map]
    refine List.map_congr_left fun s _ => ?_
    by_cases h1 : s.sid = b.seat_id
    · have hb : (b.seat_id == s.sid) = true := by simp [h1]
      simp only [Function.comp_apply, if_pos h1, List.any_cons, hb,
        Bool.true_or, if_pos]
      by_cases h2 : bs.any (fun x => x.seat_id == s.sid) = true <;> simp [h2]
    · have hb : (b.seat_id == s.sid) = false := by
        simp [Ne.symm h1]
      simp only [Function.comp_apply, if_neg h1, List.any_cons, hb,
        Bool.false_or]

/-! ## Lookup and transfer lemmas -/

theorem exists_sid_iff (ss : List SeatRow) (x : Nat) :
    (∃ s ∈ ss, s.sid = x) ↔ x ∈ ss.map SeatRow.sid :=
  List.mem_map.symm

theorem sid_bound_of_map_eq {ss ss' : List SeatRow} {m : Nat}
    (hmap : ss'.map SeatRow.sid = ss.map SeatRow.sid)
    (h : ∀ s ∈ ss, s.sid < m) : ∀ s ∈ ss', s.sid < m := by
  intro s' hs'
  have hx : s'.sid ∈ ss'.map SeatRow.sid := List.mem_map_of_mem _ hs'
  rw [hmap] at hx
  obtain ⟨s, hs, he⟩ := List.mem_map.mp hx
  exact he ▸ h s hs

theorem nodup_map_of_pairwise {α β : Type} {f : α → β} {l : List α}
    (h : l.Pairwise fun a b => f a ≠ f b) : (l.map f).Nodup :=
  List.pairwise_map.mpr h

theorem pairwise_of_nodup_map {α β : Type} {f : α → β} {l : List α}
    (h : (l.map f).Nodup) : l.Pairwise fun a b => f a ≠ f b :=
  List.pairwise_map.mp h

/-- With distinct seat primary keys, `find?` on the id retrieves exactly
the given member row. -/
theorem find?_sid_of_nodup {ss : List SeatRow}
    (h : (ss.map SeatRow.sid).Nodup) {s : SeatRow} (hs : s ∈ ss) :
    ss.find? (fun x => x.sid == s.sid) = some s := by
  induction ss with
  | nil => cases hs
  | cons a ss ih =>
    rw [List.map_cons, List.nodup_cons] at h
    rcases List.mem_cons.mp hs with rfl | hs'
    · simp [List.find?]
    · have hne : ¬ a.sid = s.sid := fun he =>
        h.1 (he ▸ List.mem_map_of_mem SeatRow.sid hs')
      have hb : (a.sid == s.sid) = false := by simp [hne]
      simp only [List.find?, hb]
      exact ih h.2 hs'

/-- Deleting the booking rows selected by `p` (with the delete trigger
firing per row) re-establishes the synchronization invariant relative to
the remaining bookings. -/
theorem freeSeats_filter_sync
    (ss : List SeatRow) (bs : List BookingRow) (p : BookingRow → Bool)
    (hNodup : (bs.map BookingRow.seat_id).Nodup)
    (hsync : ∀ s ∈ ss, s.is_booked = true ↔ ∃ b ∈ bs, b.seat_id = s.sid) :
    ∀ s ∈ freeSeats ss (bs.filter p),
      s.is_booked = true ↔
        ∃ b ∈ bs.filter (fun b => !(p b)), b.seat_id = s.sid := by
  intro s' hs'
  rw [freeSeats_eq_map] at hs'
  obtain ⟨s, hs, rfl⟩ := List.mem_map.mp hs'
  by_cases hc : (bs.filter p).any (fun b => b.seat_id == s.sid) = true
  · obtain ⟨b0, hb0mem, hb0⟩ := List.any_eq_true.mp hc
    obtain ⟨hb0bs, hb0p⟩ := List.mem_filter.mp hb0mem
    have hb0seat : b0.seat_id = s.sid := by simpa using hb0
    rw [if_pos hc]
    constructor
    · intro h; cases h
    · rintro ⟨b1, hb1mem, hb1seat⟩
      obtain ⟨hb1bs, hb1p⟩ := List.mem_filter.mp hb1mem
      have : b0 = b1 := List.inj_on_of_nodup_map hNodup hb0bs hb1bs
        (by rw [hb0seat, hb1seat])
      rw [this] at hb0p
      rw [Bool.not_eq_true'] at hb1p
      rw [hb1p] at hb0p
      cases hb0p
  · rw [if_neg hc]
    rw [List.any_eq_true] at hc
    push_neg at hc
    constructor
    · intro h
      obtain ⟨b, hb, hbs⟩ := (hsync s hs).mp h
      by_cases hp : p b = true
      · exact absurd (by simp [hbs]) (hc b (List.mem_filter.mpr ⟨hb, hp⟩))
      · exact ⟨b, List.mem_filter.mpr ⟨hb, by simp [hp]⟩, hbs⟩
    · rintro ⟨b, hbmem, hbs⟩
      exact (hsync s hs).mpr ⟨b, (List.mem_filter.mp hbmem).1, hbs⟩

/-- With the old seat distinct from the new one, the update trigger frees
the old seat, books the new one, and leaves every other seat untouched, in
one atomic state change. -/
theorem handle_eq_map {ss : List SeatRow} {o n : Nat} (h : o ≠ n) :
    handle_booking_update ss o n = ss.map fun s =>
      if s.sid = n then { s with is_booked := true }
      else if s.sid = o then { s with is_booked := false } else s := by
  unfold handle_booking_update
  rw [if_pos h]
  unfold mark_seat_booked free_seat_on_delete
  rw [List.map_map]
  refine List.map_congr_left fun s _ => ?_
  by_cases h1 : s.sid = n
  · have h2 : ¬ s.sid = o := by rw [h1]; exact fun he => h he.symm
    simp only [Function.comp_apply, if_neg h2, if_pos h1]
  · by_cases h2 : s.sid = o
    · simp only [Function.comp_apply, if_pos h2]
    · simp only [Function.comp_apply, if_neg h2, if_neg h1]

/-! ## Invariant establishment and preservation -/

theorem DBInv.of_init {db : DB} (h : InitOk db) : DBInv db := by
  obtain ⟨hb, hunb, hnd, hbound, hcell⟩ := h
  refine ⟨hnd, hbound, hcell, ?_, ?_, ?_, ?_, ?_⟩
  · rw [hb]; intro b hb'; cases hb'
  · rw [hb]; exact List.nodup_nil
  · rw [hb]; exact List.nodup_nil
  · rw [hb]; exact List.nodup_nil
  · intro s hs
    rw [hb, hunb s hs]
    constructor
    · intro h'; cases h'
    · rintro ⟨b, hb', -⟩; cases hb'

theorem DBInv.preserve_insert {db : DB} (inv : DBInv db) {caller : Nat}
    {row : BookingRow} {db' : DB}
    (h : insertBooking db caller row = some db') : DBInv db' := by
  unfold insertBooking at h
  split at h
  case isFalse => cases h
  case isTrue hcond =>
    obtain rfl : _ = db' := Option.some.inj h
    rw [Bool.and_eq_true] at hcond
    obtain ⟨hpol, hconstr⟩ := hcond
    simp only [bookingConstraintsOk, Bool.and_eq_true, Bool.not_eq_true',
      List.any_eq_false, List.any_eq_true, beq_iff_eq] at hconstr
    obtain ⟨⟨⟨⟨hbid, huser⟩, hseat⟩, hseatex⟩, huserex⟩ := hconstr
    refine ⟨?_, ?_, ?_, ?_, ?_, ?_, ?_, ?_⟩
    · show ((mark_seat_booked db.seats row.seat_id).map SeatRow.sid).Nodup
      rw [mark_map_sid]; exact inv.sidNodup
    · exact sid_bound_of_map_eq (mark_map_sid _ _) inv.sidBound
    · show ((mark_seat_booked db.seats row.seat_id).map cellKey).Nodup
      rw [mark_map_cellKey]; exact inv.cellNodup
    · intro b hb
      rcases List.mem_cons.mp hb with rfl | hb'
      · rw [exists_sid_iff, mark_map_sid, ← exists_sid_iff]
        obtain ⟨s, hs, he⟩ := hseatex
        exact ⟨s, hs, by simpa using he⟩
      · rw [exists_sid_iff, mark_map_sid, ← exists_sid_iff]
        exact inv.fk b hb'
    · rw [List.map_cons, List.nodup_cons]
      refine ⟨fun hmem => ?_, inv.userNodup⟩
      obtain ⟨b, hb, he⟩ := List.mem_map.mp hmem
      exact absurd he (by simpa using huser b hb)
    · rw [List.map_cons, List.nodup_cons]
      refine ⟨fun hmem => ?_, inv.seatNodup⟩
      obtain ⟨b, hb, he⟩ := List.mem_map.mp hmem
      exact absurd he (by simpa using hseat b hb)
    · rw [List.map_cons, List.nodup_cons]
      refine ⟨fun hmem => ?_, inv.bidNodup⟩
      obtain ⟨b, hb, he⟩ := List.mem_map.mp hmem
      exact absurd he (by simpa using hbid b hb)
    · intro s' hs'
      unfold mark_seat_booked at hs'
      obtain ⟨s, hs, rfl⟩ := List.mem_map.mp hs'
      by_cases hsi : s.sid = row.seat_id
      · rw [if_pos hsi]
        constructor
        · intro _
          exact ⟨row, List.mem_cons_self _ _, by simpa using hsi.symm⟩
        · intro _; rfl
      · rw [if_neg hsi]
        rw [inv.sync s hs]
        constructor
        · rintro ⟨b, hb, he⟩
          exact ⟨b, List.mem_cons_of_mem _ hb, he⟩
        · rintro ⟨b, hb, he⟩
          rcases List.mem_cons.mp hb with rfl | hb'
          · exact absurd he.symm hsi
          · exact ⟨b, hb', he⟩

theorem DBInv.preserve_delete {db : DB} (inv : DBInv db)
    {caller bookingId : Nat} {db' : DB}
    (h : deleteBooking db caller bookingId = some db') : DBInv db' := by
  unfold deleteBooking at h
  split at h
  case isFalse => cases h
  case isTrue =>
    obtain rfl : _ = db' := Option.some.inj h
    refine ⟨?_, ?_, ?_, ?_, ?_, ?_, ?_, ?_⟩
    · show ((freeSeats _ _).map SeatRow.sid).Nodup
      rw [freeSeats_map_sid]; exact inv.sidNodup
    · exact sid_bound_of_map_eq (freeSeats_map_sid _ _) inv.sidBound
    · show ((freeSeats _ _).map cellKey).Nodup
      rw [freeSeats_map_cellKey]; exact inv.cellNodup
    · intro b hb
      rw [exists_sid_iff, freeSeats_map_sid, ← exists_sid_iff]
      exact inv.fk b (List.mem_filter.mp hb).1
    · exact List.Nodup.sublist
        (List.Sublist.map _ (List.filter_sublist _)) inv.userNodup
    · exact List.Nodup.sublist
        (List.Sublist.map _ (List.filter_sublist _)) inv.seatNodup
    · exact List.Nodup.sublist
        (List.Sublist.map _ (List.filter_sublist _)) inv.bidNodup
    · exact freeSeats_filter_sync db.seats db.bookings
        (fun b => b.bid == bookingId) inv.seatNodup inv.sync

theorem DBInv.preserve_delUser {db : DB} (inv : DBInv db) (uid : Nat) :
    DBInv (cascadeDeleteUser db uid) := by
  unfold cascadeDeleteUser
  refine ⟨?_, ?_, ?_, ?_, ?_, ?_, ?_, ?_⟩
  · show ((freeSeats _ _).map SeatRow.sid).Nodup
    rw [freeSeats_map_sid]; exact inv.sidNodup
  · exact sid_bound_of_map_eq (freeSeats_map_sid _ _) inv.sidBound
  · show ((freeSeats _ _).map cellKey).Nodup
    rw [freeSeats_map_cellKey]; exact inv.cellNodup
  · intro b hb
    rw [exists_sid_iff, freeSeats_map_sid, ← exists_sid_iff]
    exact inv.fk b (List.mem_filter.mp hb).1
  · exact List.Nodup.sublist
      (List.Sublist.map _ (List.filter_sublist _)) inv.userNodup
  · exact List.Nodup.sublist
      (List.Sublist.map _ (List.filter_sublist _)) inv.seatNodup
  · exact List.Nodup.sublist
      (List.Sublist.map _ (List.filter_sublist _)) inv.bidNodup
  · exact freeSeats_filter_sync db.seats db.bookings
      (fun b => b.user_id == uid) inv.seatNodup inv.sync

theorem DBInv.preserve_delSeat {db : DB} (inv : DBInv db)
    {caller seatId : Nat} {db' : DB}
    (h : cascadeDeleteSeat db caller seatId = some db') : DBInv db' := by
  unfold cascadeDeleteSeat at h
  split at h
  case isFalse => cases h
  case isTrue =>
    obtain rfl : _ = db' := Option.some.inj h
    have hsubsid : ((db.seats.filter fun s => !(s.sid == seatId)).map
        SeatRow.sid).Sublist (db.seats.map SeatRow.sid) :=
      List.Sublist.map _ (List.filter_sublist _)
    refine ⟨?_, ?_, ?_, ?_, ?_, ?_, ?_, ?_⟩
    · show ((freeSeats _ _).map SeatRow.sid).Nodup
      rw [freeSeats_map_sid]
      exact List.Nodup.sublist hsubsid inv.sidNodup
    · refine sid_bound_of_map_eq (freeSeats_map_sid _ _) ?_
      intro s hs
      exact inv.sidBound s (List.mem_filter.mp hs).1
    · show ((freeSeats _ _).map cellKey).Nodup
      rw [freeSeats_map_cellKey]
      exact List.Nodup.sublist
        (List.Sublist.map _ (List.filter_sublist _)) inv.cellNodup
    · intro b hb
      obtain ⟨hbmem, hbid⟩ := List.mem_filter.mp hb
      rw [exists_sid_iff, freeSeats_map_sid, ← exists_sid_iff]
      obtain ⟨s, hs, he⟩ := inv.fk b hbmem
      refine ⟨s, List.mem_filter.mpr ⟨hs, ?_⟩, he⟩
      rw [Bool.not_eq_true'] at hbid ⊢
      rw [beq_eq_false_iff_ne] at hbid ⊢
      exact fun hse => hbid (he.symm.trans hse)
    · exact List.Nodup.sublist
        (List.Sublist.map _ (List.filter_sublist _)) inv.userNodup
    · exact List.Nodup.sublist
        (List.Sublist.map _ (List.filter_sublist _)) inv.seatNodup
    · exact List.Nodup.sublist
        (List.Sublist.map _ (List.filter_sublist _)) inv.bidNodup
    · refine freeSeats_filter_sync _ db.bookings
        (fun b => b.seat_id == seatId) inv.seatNodup ?_
      intro s hs
      exact inv.sync s (List.mem_filter.mp hs).1

theorem DBInv.preserve_update {db : DB} (inv : DBInv db)
    {caller bookingId newSeatId : Nat} {db' : DB}
    (h : updateBookingSeat db caller bookingId newSeatId = some db') :
    DBInv db' := by
  unfold updateBookingSeat at h
  split at h
  case isFalse => cases h
  case isTrue =>
    split at h
    next old hfind =>
      split at h
      next hcond =>
        obtain rfl : _ = db' := Option.some.inj h
        rw [Bool.and_eq_true] at hcond
        obtain ⟨huniq, hexn⟩ := hcond
        have holdmem : old ∈ db.bookings := List.mem_of_find?_eq_some hfind
        have holdbid : old.bid = bookingId := by
          have := List.find?_some hfind; simpa using this
        rw [Bool.not_eq_true', List.any_eq_false] at huniq
        have huniq' : ∀ x ∈ db.bookings,
            x.bid ≠ bookingId → x.seat_id ≠ newSeatId := by
          intro x hx hbx hsx
          exact huniq x hx (by simp [hbx, hsx])
        rw [List.any_eq_true] at hexn
        have hexn' : ∃ s ∈ db.seats, s.sid = newSeatId := by
          obtain ⟨s, hs, he⟩ := hexn
          exact ⟨s, hs, by simpa using he⟩
        have hbidinj : ∀ x ∈ db.bookings, x.bid = bookingId → x = old := by
          intro x hx hbx
          exact List.inj_on_of_nodup_map inv.bidNodup hx holdmem
            (by rw [hbx, holdbid])
        by_cases honn : old.seat_id = newSeatId
        · have hbk : (db.bookings.map fun b =>
              if b.bid == bookingId then { b with seat_id := newSeatId }
              else b) = db.bookings := by
            have hpt : ∀ b ∈ db.bookings,
                (if b.bid == bookingId then { b with seat_id := newSeatId }
                 else b) = b := by
              intro b hb
              by_cases hbb : b.bid = bookingId
              · rw [if_pos (by simpa using hbb)]
                have hbo := hbidinj b hb hbb
                rw [hbo, ← honn]
              · rw [if_neg (by simpa using hbb)]
            rw [List.map_congr_left hpt, List.map_id']
          have hst : handle_booking_update db.seats old.seat_id newSeatId =
              db.seats := by
            unfold handle_booking_update
            rw [if_neg (by simp [honn])]
          rw [hbk, hst]
          exact inv
        · refine ⟨?_, ?_, ?_, ?_, ?_, ?_, ?_, ?_⟩
          · show ((handle_booking_update _ _ _).map SeatRow.sid).Nodup
            rw [handle_map_sid]; exact inv.sidNodup
          · exact sid_bound_of_map_eq (handle_map_sid _ _ _) inv.sidBound
          · show ((handle_booking_update _ _ _).map cellKey).Nodup
            rw [handle_map_cellKey]; exact inv.cellNodup
          · intro b' hb'
            obtain ⟨b0, hb0, rfl⟩ := List.mem_map.mp hb'
            rw [exists_sid_iff, handle_map_sid, ← exists_sid_iff]
            by_cases hbb : b0.bid = bookingId
            · rw [if_pos (by simpa using hbb)]
              exact hexn'
            · rw [if_neg (by simpa using hbb)]
              exact inv.fk b0 hb0
          · rw [List.map_map]
            have hpt : ∀ b ∈ db.bookings,
                (BookingRow.user_id ∘ fun b =>
                  if b.bid == bookingId then { b with seat_id := newSeatId }
                  else b) b = BookingRow.user_id b := by
              intro b _
              by_cases hbb : b.bid = bookingId <;>
                simp [Function.comp_apply, hbb]
            rw [List.map_congr_left hpt]
            exact inv.userNodup
          · rw [List.map_map]
            refine nodup_map_of_pairwise ?_
            have hcomb := (pairwise_of_nodup_map inv.seatNodup).and
              (pairwise_of_nodup_map inv.bidNodup)
            refine List.Pairwise.imp_of_mem ?_ hcomb
            intro a b ha hb hab heq
            obtain ⟨hsne, hbne⟩ := hab
            by_cases ha' : a.bid = bookingId <;>
              by_cases hb' : b.bid = bookingId
            · exact hbne (by rw [(hbidinj a ha ha'), (hbidinj b hb hb')])
            · simp only [Function.comp_apply, if_pos (by simpa using ha' :
                (a.bid == bookingId) = true), if_neg (by simpa using hb' :
                ¬ (b.bid == bookingId) = true)] at heq
              exact huniq' b hb hb' heq.symm
            · simp only [Function.comp_apply, if_neg (by simpa using ha' :
                ¬ (a.bid == bookingId) = true), if_pos (by simpa using hb' :
                (b.bid == bookingId) = true)] at heq
              exact huniq' a ha ha' heq
            · simp only [Function.comp_apply, if_neg (by simpa using ha' :
                ¬ (a.bid == bookingId) = true), if_neg (by simpa using hb' :
                ¬ (b.bid == bookingId) = true)] at heq
              exact hsne heq
          · rw [List.map_map]
            have hpt : ∀ b ∈ db.bookings,
                (BookingRow.bid ∘ fun b =>
                  if b.bid == bookingId then { b with seat_id := newSeatId }
                  else b) b = BookingRow.bid b := by
              intro b _
              by_cases hbb : b.bid = bookingId <;>
                simp [Function.comp_apply, hbb]
            rw [List.map_congr_left hpt]
            exact inv.bidNodup
          · rw [handle_eq_map honn]
            intro s' hs'
            obtain ⟨s, hs, rfl⟩ := List.mem_map.mp hs'
            by_cases h1 : s.sid = newSeatId
            · rw [if_pos h1]
              constructor
              · intro _
                refine ⟨{ old with seat_id := newSeatId }, ?_, by simpa using h1.symm⟩
                refine List.mem_map.mpr ⟨old, holdmem, ?_⟩
                rw [if_pos (by simpa using holdbid)]
              · intro _; rfl
            · by_cases h2 : s.sid = old.seat_id
              · rw [if_neg h1, if_pos h2]
                constructor
                · intro hfals; cases hfals
                · rintro ⟨b', hb', hbs⟩
                  obtain ⟨b0, hb0, rfl⟩ := List.mem_map.mp hb'
                  by_cases hbb : b0.bid = bookingId
                  · rw [if_pos (by simpa using hbb)] at hbs
                    exact absurd (by simpa using hbs.symm : s.sid = newSeatId) h1
                  · rw [if_neg (by simpa using hbb)] at hbs
                    have hb0seat : b0.seat_id = old.seat_id := by
                      simpa using hbs.trans h2
                    have : b0 = old := List.inj_on_of_nodup_map inv.seatNodup
                      hb0 holdmem hb0seat
                    exact absurd (show b0.bid = bookingId by
                      rw [this]; exact holdbid) hbb
              · rw [if_neg h1, if_neg h2]
                rw [inv.sync s hs]
                constructor
                · rintro ⟨b0, hb0, hbs⟩
                  have hbb : ¬ b0.bid = bookingId := by
                    intro hbb
                    have := hbidinj b0 hb0 hbb
                    exact h2 (hbs.symm.trans (by rw [this]))
                  refine ⟨b0, List.mem_map.mpr ⟨b0, hb0, ?_⟩, hbs⟩
                  rw [if_neg (by simpa using hbb)]
                · rintro ⟨b', hb', hbs⟩
                  obtain ⟨b0, hb0, rfl⟩ := List.mem_map.mp hb'
                  by_cases hbb : b0.bid = bookingId
                  · rw [if_pos (by simpa using hbb)] at hbs
                    exact absurd (by simpa using hbs.symm : s.sid = newSeatId) h1
                  · rw [if_neg (by simpa using hbb)] at hbs
                    exact ⟨b0, hb0, hbs⟩
      next => cases h
    next hfind =>
      obtain rfl : db = db' := Option.some.inj h
      exact inv

/-! ## Properties of the seat-grid regeneration fold -/

theorem insertSeatCell_eq (layoutId : Nat) (ss : List SeatRow) (nid : Nat)
    (c : Nat × Nat) :
    insertSeatCell layoutId (ss, nid) c =
      if (ss.any fun s => s.seat_layout_id == layoutId &&
          s.row_num == c.1 && s.col_num == c.2) = true then (ss, nid)
      else (ss ++ [newSeat layoutId nid c], nid + 1) := rfl

theorem insertSeatCell_occ {layoutId : Nat} {ss : List SeatRow} {nid : Nat}
    {c : Nat × Nat}
    (h : (ss.any fun s => s.seat_layout_id == layoutId &&
      s.row_num == c.1 && s.col_num == c.2) = true) :
    insertSeatCell layoutId (ss, nid) c = (ss, nid) := by
  rw [insertSeatCell_eq, if_pos h]

theorem insertSeatCell_new {layoutId : Nat} {ss : List SeatRow} {nid : Nat}
    {c : Nat × Nat}
    (h : ¬ (ss.any fun s => s.seat_layout_id == layoutId &&
      s.row_num == c.1 && s.col_num == c.2) = true) :
    insertSeatCell layoutId (ss, nid) c =
      (ss ++ [newSeat layoutId nid c], nid + 1) := by
  rw [insertSeatCell_eq, if_neg h]

theorem foldInsert_mem (layoutId : Nat) (cells : List (Nat × Nat))
    (ss : List SeatRow) (nid : Nat) :
    ∀ s ∈ (cells.foldl (insertSeatCell layoutId) (ss, nid)).1,
      s ∈ ss ∨ (s.seat_layout_id = layoutId ∧ s.is_booked = false ∧
        nid ≤ s.sid ∧ (s.row_num, s.col_num) ∈ cells) := by
  induction cells generalizing ss nid with
  | nil => intro s hs; exact Or.inl hs
  | cons c cells ih =>
    intro s hs
    rw [List.foldl_cons] at hs
    by_cases hocc : (ss.any fun s => s.seat_layout_id == layoutId &&
        s.row_num == c.1 && s.col_num == c.2) = true
    · rw [insertSeatCell_occ hocc] at hs
      rcases ih ss nid s hs with h | ⟨h1, h2, h3, h4⟩
      · exact Or.inl h
      · exact Or.inr ⟨h1, h2, h3, List.mem_cons_of_mem _ h4⟩
    · rw [insertSeatCell_new hocc] at hs
      rcases ih _ _ s hs with h | ⟨h1, h2, h3, h4⟩
      · rcases List.mem_append.mp h with h' | h'
        · exact Or.inl h'
        · rcases List.mem_singleton.mp h' with rfl
          refine Or.inr ⟨rfl, rfl, Nat.le_refl _, ?_⟩
          show (c.1, c.2) ∈ c :: cells
          rw [Prod.mk.eta]
          exact List.mem_cons_self _ _
      · exact Or.inr ⟨h1, h2, Nat.le_of_succ_le h3,
          List.mem_cons_of_mem _ h4⟩

theorem foldInsert_prefix (layoutId : Nat) (cells : List (Nat × Nat))
    (ss : List SeatRow) (nid : Nat) :
    ∃ ext, (cells.foldl (insertSeatCell layoutId) (ss, nid)).1 = ss ++ ext := by
  induction cells generalizing ss nid with
  | nil => exact ⟨[], (List.append_nil ss).symm⟩
  | cons c cells ih =>
    rw [List.foldl_cons]
    by_cases hocc : (ss.any fun s => s.seat_layout_id == layoutId &&
        s.row_num == c.1 && s.col_num == c.2) = true
    · rw [insertSeatCell_occ hocc]
      exact ih ss nid
    · rw [insertSeatCell_new hocc]
      obtain ⟨ext, he⟩ := ih (ss ++ [newSeat layoutId nid c]) (nid + 1)
      exact ⟨_, he.trans (List.append_assoc _ _ _)⟩

theorem foldInsert_nid_mono (layoutId : Nat) (cells : List (Nat × Nat))
    (ss : List SeatRow) (nid : Nat) :
    nid ≤ (cells.foldl (insertSeatCell layoutId) (ss, nid)).2 := by
  induction cells generalizing ss nid with
  | nil => exact Nat.le_refl _
  | cons c cells ih =>
    rw [List.foldl_cons]
    by_cases hocc : (ss.any fun s => s.seat_layout_id == layoutId &&
        s.row_num == c.1 && s.col_num == c.2) = true
    · rw [insertSeatCell_occ hocc]; exact ih ss nid
    · rw [insertSeatCell_new hocc]
      exact Nat.le_trans (Nat.le_succ _) (ih _ _)

theorem foldInsert_sid_lt (layoutId : Nat) (cells : List (Nat × Nat))
    (ss : List SeatRow) (nid : Nat) (h : ∀ s ∈ ss, s.sid < nid) :
    ∀ s ∈ (cells.foldl (insertSeatCell layoutId) (ss, nid)).1,
      s.sid < (cells.foldl (insertSeatCell layoutId) (ss, nid)).2 := by
  induction cells generalizing ss nid with
  | nil => exact h
  | cons c cells ih =>
    rw [List.foldl_cons]
    by_cases hocc : (ss.any fun s => s.seat_layout_id == layoutId &&
        s.row_num == c.1 && s.col_num == c.2) = true
    · rw [insertSeatCell_occ hocc]; exact ih ss nid h
    · rw [insertSeatCell_new hocc]
      refine ih _ _ ?_
      intro s hs
      rcases List.mem_append.mp hs with h' | h'
      · exact Nat.lt_trans (h s h') (Nat.lt_succ_self _)
      · rcases List.mem_singleton.mp h' with rfl
        exact Nat.lt_succ_self _

theorem foldInsert_sidNodup (layoutId : Nat) (cells : List (Nat × Nat))
    (ss : List SeatRow) (nid : Nat) (hnd : (ss.map SeatRow.sid).Nodup)
    (h : ∀ s ∈ ss, s.sid < nid) :
    (((cells.foldl (insertSeatCell layoutId) (ss, nid)).1).map
      SeatRow.sid).Nodup := by
  induction cells generalizing ss nid with
  | nil => exact hnd
  | cons c cells ih =>
    rw [List.foldl_cons]
    by_cases hocc : (ss.any fun s => s.seat_layout_id == layoutId &&
        s.row_num == c.1 && s.col_num == c.2) = true
    · rw [insertSeatCell_occ hocc]; exact ih ss nid hnd h
    · rw [insertSeatCell_new hocc]
      refine ih _ _ ?_ ?_
      · rw [List.map_append, List.nodup_append]
        refine ⟨hnd, List.nodup_singleton _, ?_⟩
        intro x hx hx'
        obtain ⟨s, hs, rfl⟩ := List.mem_map.mp hx
        have : s.sid = nid := by simpa [newSeat] using hx'
        exact absurd this (Nat.ne_of_lt (h s hs))
      · intro s hs
        rcases List.mem_append.mp hs with h' | h'
        · exact Nat.lt_trans (h s h') (Nat.lt_succ_self _)
        · rcases List.mem_singleton.mp h' with rfl
          exact Nat.lt_succ_self _

theorem foldInsert_cellNodup (layoutId : Nat) (cells : List (Nat × Nat))
    (ss : List SeatRow) (nid : Nat) (hnd : (ss.map cellKey).Nodup) :
    (((cells.foldl (insertSeatCell layoutId) (ss, nid)).1).map
      cellKey).Nodup := by
  induction cells generalizing ss nid with
  | nil => exact hnd
  | cons c cells ih =>
    rw [List.foldl_cons]
    by_cases hocc : (ss.any fun s => s.seat_layout_id == layoutId &&
        s.row_num == c.1 && s.col_num == c.2) = true
    · rw [insertSeatCell_occ hocc]; exact ih ss nid hnd
    · rw [insertSeatCell_new hocc]
      refine ih _ _ ?_
      rw [List.map_append, List.nodup_append]
      refine ⟨hnd, List.nodup_singleton _, ?_⟩
      intro x hx hx'
      obtain ⟨s, hs, rfl⟩ := List.mem_map.mp hx
      have hkey : cellKey s = cellKey (newSeat layoutId nid c) := by
        simpa using hx'
      have h1 : s.seat_layout_id = layoutId := congrArg Prod.fst hkey
      have h2 : s.row_num = c.1 := congrArg (fun p => p.2.1) hkey
      have h3 : s.col_num = c.2 := congrArg (fun p => p.2.2) hkey
      exact hocc (List.any_eq_true.mpr ⟨s, hs, by simp [h1, h2, h3]⟩)

theorem generate_eq_none {db : DB} {layoutId : Nat}
    (hfind : db.seat_layout.find? (fun l => l.lid == layoutId) = none) :
    generate_seats_for_layout db layoutId = db := by
  unfold generate_seats_for_layout
  rw [hfind]

theorem generate_eq {db : DB} {layoutId : Nat} {lay : LayoutRow}
    (hfind : db.seat_layout.find? (fun l => l.lid == layoutId) = some lay) :
    generate_seats_for_layout db layoutId =
      { db with
        seats := ((gridCells lay.total_rows lay.total_columns).foldl
          (insertSeatCell layoutId)
          (db.seats.filter fun s =>
            !(s.seat_layout_id == layoutId) || s.is_booked, db.nextId)).1,
        nextId := ((gridCells lay.total_rows lay.total_columns).foldl
          (insertSeatCell layoutId)
          (db.seats.filter fun s =>
            !(s.seat_layout_id == layoutId) || s.is_booked, db.nextId)).2 } := by
  unfold generate_seats_for_layout
  rw [hfind]

theorem DBInv.preserve_regen {db : DB} (inv : DBInv db) (layoutId : Nat) :
    DBInv (generate_seats_for_layout db layoutId) := by
  cases hfind : db.seat_layout.find? (fun l => l.lid == layoutId) with
  | none => rw [generate_eq_none hfind]; exact inv
  | some lay =>
    rw [generate_eq hfind]
    have hkeptnd : (((db.seats.filter fun s =>
        !(s.seat_layout_id == layoutId) || s.is_booked)).map
          SeatRow.sid).Nodup :=
      List.Nodup.sublist (List.Sublist.map _ (List.filter_sublist _))
        inv.sidNodup
    have hkeptbound : ∀ s ∈ (db.seats.filter fun s =>
        !(s.seat_layout_id == layoutId) || s.is_booked), s.sid < db.nextId :=
      fun s hs => inv.sidBound s (List.mem_filter.mp hs).1
    refine ⟨?_, ?_, ?_, ?_, inv.userNodup, inv.seatNodup, inv.bidNodup, ?_⟩
    · exact foldInsert_sidNodup _ _ _ _ hkeptnd hkeptbound
    · exact foldInsert_sid_lt _ _ _ _ hkeptbound
    · exact foldInsert_cellNodup _ _ _ _
        (List.Nodup.sublist (List.Sublist.map _ (List.filter_sublist _))
          inv.cellNodup)
    · intro b hb
      obtain ⟨s, hs, he⟩ := inv.fk b hb
      have hsb : s.is_booked = true := (inv.sync s hs).mpr ⟨b, hb, he.symm⟩
      have hskept : s ∈ db.seats.filter fun s =>
          !(s.seat_layout_id == layoutId) || s.is_booked :=
        List.mem_filter.mpr ⟨hs, by simp [hsb]⟩
      obtain ⟨ext, hext⟩ := foldInsert_prefix layoutId
        (gridCells lay.total_rows lay.total_columns)
        (db.seats.filter fun s =>
          !(s.seat_layout_id == layoutId) || s.is_booked) db.nextId
      refine ⟨s, ?_, he⟩
      rw [hext]
      exact List.mem_append_left _ hskept
    · intro s' hs'
      rcases foldInsert_mem layoutId
        (gridCells lay.total_rows lay.total_columns)
        (db.seats.filter fun s =>
          !(s.seat_layout_id == layoutId) || s.is_booked) db.nextId s' hs'
        with hk | ⟨-, hub, hge, -⟩
      · exact inv.sync s' (List.mem_filter.mp hk).1
      · rw [hub]
        constructor
        · intro hfals; cases hfals
        · rintro ⟨b, hb, he⟩
          obtain ⟨t, ht, hte⟩ := inv.fk b hb
          have h1 : t.sid < db.nextId := inv.sidBound t ht
          rw [hte, he] at h1
          exact absurd h1 (Nat.not_lt_of_ge hge)

theorem DBInv.preserve_step {db db' : DB} (inv : DBInv db) (h : Step db db') :
    DBInv db' := by
  cases h with
  | insert caller row h => exact inv.preserve_insert h
  | delete caller bookingId h => exact inv.preserve_delete h
  | update caller bookingId newSeatId h => exact inv.preserve_update h
  | delUser uid => exact inv.preserve_delUser uid
  | delSeat caller seatId h => exact inv.preserve_delSeat h
  | regen layoutId => exact inv.preserve_regen layoutId

/-- Every reachable state satisfies the full inductive invariant. -/
theorem reachable_inv {db : DB} (h : Reachable db) : DBInv db := by
  induction h with
  | init h0 => exact DBInv.of_init h0
  | step _ hstep ih => exact ih.preserve_step hstep

/-! ## Auxiliary characterizations for the policy and insert operations -/

theorem optIsTrue_some (b : Bool) : optIsTrue (some b) = b := by
  cases b <;> rfl

theorem seat_avail_iff {db : DB} (hnd : (db.seats.map SeatRow.sid).Nodup)
    (x : Nat) :
    optIsTrue (seat_is_available db x) = true ↔
      ∃ s ∈ db.seats, s.sid = x ∧ s.is_booked = false := by
  unfold seat_is_available
  cases hfind : db.seats.find? (fun s => s.sid == x) with
  | none =>
    rw [Option.map_none']
    constructor
    · intro h; cases h
    · rintro ⟨s, hs, he, hb⟩
      rw [List.find?_eq_none] at hfind
      exact absurd (by simp [he]) (hfind s hs)
  | some s0 =>
    rw [Option.map_some', optIsTrue_some]
    constructor
    · intro h
      have hs0 : s0 ∈ db.seats := List.mem_of_find?_eq_some hfind
      have hsx : s0.sid = x := by simpa using List.find?_some hfind
      exact ⟨s0, hs0, hsx, by simpa using h⟩
    · rintro ⟨s, hs, he, hb⟩
      have hfs : db.seats.find? (fun t => t.sid == s.sid) = some s :=
        find?_sid_of_nodup hnd hs
      rw [he] at hfs
      rw [hfind] at hfs
      obtain rfl := Option.some.inj hfs
      simp [hb]

theorem countP_key_le_one {α β : Type} [BEq β] [LawfulBEq β] {f : α → β}
    {l : List α} (h : (l.map f).Nodup) (x : β) :
    l.countP (fun a => f a == x) ≤ 1 := by
  induction l with
  | nil => rw [List.countP_nil]; omega
  | cons a l ih =>
    rw [List.map_cons, List.nodup_cons] at h
    rw [List.countP_cons]
    by_cases hax : (f a == x) = true
    · rw [if_pos hax]
      have hfx : f a = x := by simpa using hax
      have hzero : l.countP (fun a' => f a' == x) = 0 := by
        rw [List.countP_eq_zero]
        intro b hb hbx
        have hfb : f b = x := by simpa using hbx
        exact h.1 ((hfx.trans hfb.symm) ▸ List.mem_map_of_mem f hb)
      rw [hzero]
    · rw [if_neg hax]
      have := ih h.2
      omega

theorem insertBooking_none_of_seat_taken {db : DB} {caller : Nat}
    {row : BookingRow} (h : ∃ b ∈ db.bookings, b.seat_id = row.seat_id) :
    insertBooking db caller row = none := by
  unfold insertBooking
  have hc : bookingConstraintsOk db row = false := by
    unfold bookingConstraintsOk
    obtain ⟨b, hb, he⟩ := h
    have hany : (db.bookings.any fun b => b.seat_id == row.seat_id) = true :=
      List.any_eq_true.mpr ⟨b, hb, by simp [he]⟩
    rw [hany]
    simp
  rw [hc]
  simp

theorem insertBooking_none_of_user_taken {db : DB} {caller : Nat}
    {row : BookingRow} (h : ∃ b ∈ db.bookings, b.user_id = row.user_id) :
    insertBooking db caller row = none := by
  unfold insertBooking
  have hc : bookingConstraintsOk db row = false := by
    unfold bookingConstraintsOk
    obtain ⟨b, hb, he⟩ := h
    have hany : (db.bookings.any fun b => b.user_id == row.user_id) = true :=
      List.any_eq_true.mpr ⟨b, hb, by simp [he]⟩
    rw [hany]
    simp
  rw [hc]
  simp

/-! ## Claim theorems: the booking consistency mechanism -/

/-- C1: in every state reachable by committed booking operations (booking
insert, delete, update, and cascade deletes of users or seats; the admin
freeze/unfreeze override excluded), every seat satisfies `is_booked = true`
iff a booking row references it — the invariant the triggers
`mark_seat_booked`, `free_seat_on_delete` and `handle_booking_update`
preserve. -/
theorem seat_sync_invariant {db : DB} (h : Reachable db) :
    ∀ s ∈ db.seats,
      s.is_booked = true ↔ ∃ b ∈ db.bookings, b.seat_id = s.sid :=
  (reachable_inv h).sync

/-- Witness for C1 at a concrete reachable state (one committed insert). -/
theorem seat_sync_invariant_witness :
    (⟨1, 0, 1, 1, true⟩ : SeatRow).is_booked = true ↔
      ∃ b ∈ dbW1.bookings,
        b.seat_id = (⟨1, 0, 1, 1, true⟩ : SeatRow).sid :=
  seat_sync_invariant
    (@Reachable.step dbW0 dbW1 (@Reachable.init dbW0 (by unfold InitOk; decide))
      (@Step.insert 7 ⟨5, 7, 1⟩ dbW0 dbW1 (by decide)))
    ⟨1, 0, 1, 1, true⟩ (by decide)

/-- C2: in every reachable state each user id occurs in at most one booking
row and each seat id occurs in at most one booking row — the
`UNIQUE(user_id)` and `UNIQUE(seat_id)` constraints hold along every
operation sequence. -/
theorem booking_uniqueness {db : DB} (h : Reachable db) :
    (∀ u, db.bookings.countP (fun b => b.user_id == u) ≤ 1) ∧
    (∀ sid, db.bookings.countP (fun b => b.seat_id == sid) ≤ 1) :=
  ⟨fun u => countP_key_le_one (reachable_inv h).userNodup u,
   fun sid => countP_key_le_one (reachable_inv h).seatNodup sid⟩

/-- Witness for C2 at a concrete reachable state. -/
theorem booking_uniqueness_witness :
    dbW1.bookings.countP (fun b => b.user_id == 7) ≤ 1 ∧
    dbW1.bookings.countP (fun b => b.seat_id == 1) ≤ 1 :=
  ⟨(booking_uniqueness
      (@Reachable.step dbW0 dbW1 (@Reachable.init dbW0 (by unfold InitOk; decide))
        (@Step.insert 7 ⟨5, 7, 1⟩ dbW0 dbW1 (by decide)))).1 7,
   (booking_uniqueness
      (@Reachable.step dbW0 dbW1 (@Reachable.init dbW0 (by unfold InitOk; decide))
        (@Step.insert 7 ⟨5, 7, 1⟩ dbW0 dbW1 (by decide)))).2 1⟩

/-- C3: for an authenticated non-admin caller, the booking INSERT policy
admits a row iff it is the caller's own (`user_id = caller`), the caller
currently holds no booking, and the target seat exists with
`is_booked = false`; and a policy-rejected insert commits nothing (the
operation yields no successor state, leaving every table unchanged). -/
theorem booking_insert_policy_characterization {db : DB} {caller : Nat}
    {row : BookingRow}
    (hadmin : has_role db caller AppRole.admin = false)
    (hnd : (db.seats.map SeatRow.sid).Nodup) :
    (booking_insert_policy db caller row = true ↔
      (row.user_id = caller ∧ (∀ b ∈ db.bookings, b.user_id ≠ caller) ∧
        ∃ s ∈ db.seats, s.sid = row.seat_id ∧ s.is_booked = false)) ∧
    (booking_insert_policy db caller row = false →
      insertBooking db caller row = none) := by
  constructor
  · unfold booking_insert_policy booking_insert_user_policy
    rw [hadmin, Bool.or_false]
    rw [Bool.and_eq_true, Bool.and_eq_true]
    rw [seat_avail_iff hnd]
    constructor
    · rintro ⟨⟨h1, h2⟩, h3⟩
      refine ⟨by simpa using h1, ?_, h3⟩
      rw [Bool.not_eq_true'] at h2
      unfold user_has_booking at h2
      rw [List.any_eq_false] at h2
      intro b hb
      simpa using h2 b hb
    · rintro ⟨h1, h2, h3⟩
      refine ⟨⟨by simpa using h1, ?_⟩, h3⟩
      rw [Bool.not_eq_true']
      unfold user_has_booking
      rw [List.any_eq_false]
      intro b hb
      simpa using h2 b hb
  · intro hp
    unfold insertBooking
    rw [hp, Bool.false_and]
    rfl

/-- Witness for C3: user 7 (not an admin) attempting to book the free
seat in `dbW0`. -/
theorem booking_insert_policy_characterization_witness :
    (booking_insert_policy dbW0 7 ⟨5, 7, 1⟩ = true ↔
      ((⟨5, 7, 1⟩ : BookingRow).user_id = 7 ∧
        (∀ b ∈ dbW0.bookings, b.user_id ≠ 7) ∧
        ∃ s ∈ dbW0.seats, s.sid = (⟨5, 7, 1⟩ : BookingRow).seat_id ∧
          s.is_booked = false)) ∧
    (booking_insert_policy dbW0 7 ⟨5, 7, 1⟩ = false →
      insertBooking dbW0 7 ⟨5, 7, 1⟩ = none) :=
  booking_insert_policy_characterization (by decide) (by decide)

/-- C5: for a committed booking update, if the new seat differs from the
old, the single transition frees the old seat, books the new one, and
leaves every other seat row untouched (no intermediate state exists, the
trigger running in the same transaction); if old and new seat coincide,
no seat row is written at all. -/
theorem booking_update_seats {db : DB} {caller bookingId newSeatId : Nat}
    {old : BookingRow} {db' : DB}
    (hfind : db.bookings.find? (fun b => b.bid == bookingId) = some old)
    (h : updateBookingSeat db caller bookingId newSeatId = some db') :
    (old.seat_id = newSeatId → db'.seats = db.seats) ∧
    (old.seat_id ≠ newSeatId → db'.seats = db.seats.map fun s =>
      if s.sid = newSeatId then { s with is_booked := true }
      else if s.sid = old.seat_id then { s with is_booked := false }
      else s) := by
  unfold updateBookingSeat at h
  split at h
  case isFalse => cases h
  case isTrue =>
    split at h
    next old2 hfind2 =>
      rw [hfind2] at hfind
      obtain rfl : old = old2 := (Option.some.inj hfind).symm
      split at h
      next hcond =>
        obtain rfl : _ = db' := Option.some.inj h
        constructor
        · intro he
          have hseq : handle_booking_update db.seats old.seat_id newSeatId =
              db.seats := by
            unfold handle_booking_update
            rw [if_neg (by simp [he])]
          exact hseq
        · intro hne
          exact handle_eq_map hne
      next => cases h
    next hfind2 =>
      rw [hfind2] at hfind
      cases hfind

/-- Witness for C5: the admin moves booking 5 from seat 1 to seat 2 in
`dbU`; seat 1 is freed and seat 2 booked in one transition. -/
theorem booking_update_seats_witness :
    ((⟨5, 7, 1⟩ : BookingRow).seat_id = 2 → dbU1.seats = dbU.seats) ∧
    ((⟨5, 7, 1⟩ : BookingRow).seat_id ≠ 2 →
      dbU1.seats = dbU.seats.map fun s =>
        if s.sid = 2 then { s with is_booked := true }
        else if s.sid = (⟨5, 7, 1⟩ : BookingRow).seat_id then
          { s with is_booked := false }
        else s) :=
  @booking_update_seats dbU 9 5 2 ⟨5, 7, 1⟩ dbU1 (by decide) (by decide)

/-- C4: two racing booking attempts — two users contending for the same
free seat, or one user attempting a second booking: whichever serialization
order the store picks, the first insert commits and the second is rejected,
and the seat/booking synchronization invariant holds afterwards. -/
theorem booking_race_resolution {db : DB} (hreach : Reachable db)
    {S : SeatRow} (hS : S ∈ db.seats) (hSfree : S.is_booked = false)
    {u v bid1 : Nat} (huv : u ≠ v)
    (hu : u ∈ db.users) (hv : v ∈ db.users)
    (hub : user_has_booking db u = false)
    (hvb : user_has_booking db v = false)
    (hbid : ∀ b ∈ db.bookings, b.bid ≠ bid1) :
    ∃ db1, insertBooking db u ⟨bid1, u, S.sid⟩ = some db1 ∧
      (∀ bid2, insertBooking db1 v ⟨bid2, v, S.sid⟩ = none) ∧
      (∀ bid2 tid, insertBooking db1 u ⟨bid2, u, tid⟩ = none) ∧
      (∀ s ∈ db1.seats, s.is_booked = true ↔
        ∃ b ∈ db1.bookings, b.seat_id = s.sid) := by
  have inv := reachable_inv hreach
  have hpol : booking_insert_policy db u ⟨bid1, u, S.sid⟩ = true := by
    unfold booking_insert_policy
    have huserpol : booking_insert_user_policy db u ⟨bid1, u, S.sid⟩ =
        true := by
      unfold booking_insert_user_policy
      rw [Bool.and_eq_true, Bool.and_eq_true]
      refine ⟨⟨by simp, ?_⟩, ?_⟩
      · rw [show user_has_booking db u = false from hub]
        rfl
      · rw [seat_avail_iff inv.sidNodup]
        exact ⟨S, hS, rfl, hSfree⟩
    rw [huserpol, Bool.true_or]
  have hnobook : ∀ b ∈ db.bookings, b.seat_id ≠ S.sid := by
    intro b hb he
    have hb' := (inv.sync S hS).mpr ⟨b, hb, he⟩
    rw [hSfree] at hb'
    cases hb'
  have hconstr : bookingConstraintsOk db ⟨bid1, u, S.sid⟩ = true := by
    unfold bookingConstraintsOk
    rw [Bool.and_eq_true, Bool.and_eq_true, Bool.and_eq_true,
      Bool.and_eq_true]
    refine ⟨⟨⟨⟨?_, ?_⟩, ?_⟩, ?_⟩, ?_⟩
    · rw [Bool.not_eq_true', List.any_eq_false]
      intro b hb
      simpa using hbid b hb
    · rw [Bool.not_eq_true']
      exact hub
    · rw [Bool.not_eq_true', List.any_eq_false]
      intro b hb
      simpa using hnobook b hb
    · exact List.any_eq_true.mpr ⟨S, hS, by simp⟩
    · exact List.any_eq_true.mpr ⟨u, hu, by simp⟩
  have hcond : (booking_insert_policy db u ⟨bid1, u, S.sid⟩ &&
      bookingConstraintsOk db ⟨bid1, u, S.sid⟩) = true := by
    rw [hpol, hconstr]
    rfl
  have hins : insertBooking db u ⟨bid1, u, S.sid⟩ = some
      { db with
        bookings := ⟨bid1, u, S.sid⟩ :: db.bookings,
        seats := mark_seat_booked db.seats S.sid } := by
    unfold insertBooking
    rw [if_pos hcond]
  refine ⟨_, hins, ?_, ?_, (inv.preserve_insert hins).sync⟩
  · intro bid2
    exact insertBooking_none_of_seat_taken
      ⟨⟨bid1, u, S.sid⟩, List.mem_cons_self _ _, rfl⟩
  · intro bid2 tid
    exact insertBooking_none_of_user_taken
      ⟨⟨bid1, u, S.sid⟩, List.mem_cons_self _ _, rfl⟩

/-- Witness for C4: users 7 and 8 race for the single free seat of `dbR0`. -/
theorem booking_race_resolution_witness :
    ∃ db1, insertBooking dbR0 7 ⟨5, 7, 1⟩ = some db1 ∧
      (∀ bid2, insertBooking db1 8 ⟨bid2, 8, 1⟩ = none) ∧
      (∀ bid2 tid, insertBooking db1 7 ⟨bid2, 7, tid⟩ = none) ∧
      (∀ s ∈ db1.seats, s.is_booked = true ↔
        ∃ b ∈ db1.bookings, b.seat_id = s.sid) :=
  @booking_race_resolution dbR0 (@Reachable.init dbR0 (by unfold InitOk; decide))
    ⟨1, 0, 1, 1, false⟩ (by decide) (by decide) 7 8 5 (by decide)
    (by decide) (by decide) (by decide) (by decide) (by decide)

/-! ## Counting lemmas for layout regeneration -/

theorem countP_or_disjoint {α : Type} (l : List α) (p q : α → Bool)
    (h : ∀ a ∈ l, ¬(p a = true ∧ q a = true)) :
    l.countP (fun a => p a || q a) = l.countP p + l.countP q := by
  induction l with
  | nil => simp [List.countP_nil]
  | cons a l ih =>
    rw [List.countP_cons, List.countP_cons, List.countP_cons,
      ih (fun x hx => h x (List.mem_cons_of_mem a hx))]
    have ha := h a (List.mem_cons_self a l)
    by_cases hp : p a = true <;> by_cases hq : q a = true
    · exact absurd ⟨hp, hq⟩ ha
    · simp [hp, hq] <;> omega
    · simp [hp, hq] <;> omega
    · simp [hp, hq]

theorem countP_and_split {α : Type} (l : List α) (p q : α → Bool) :
    l.countP p = l.countP (fun a => p a && q a) +
      l.countP (fun a => p a && !q a) := by
  induction l with
  | nil => simp [List.countP_nil]
  | cons a l ih =>
    rw [List.countP_cons, List.countP_cons, List.countP_cons, ih]
    by_cases hp : p a = true <;> by_cases hq : q a = true
    · simp [hp, hq] <;> omega
    · simp [hp, hq] <;> omega
    · simp [hp, hq] <;> omega
    · simp [hp, hq]

theorem mem_gridCells {r c R C : Nat} :
    (r, c) ∈ gridCells R C ↔ 1 ≤ r ∧ r ≤ R ∧ 1 ≤ c ∧ c ≤ C := by
  unfold gridCells
  rw [List.mem_flatMap]
  constructor
  · rintro ⟨r0, hr0, hmem⟩
    rw [List.mem_range] at hr0
    obtain ⟨c0, hc0, he⟩ := List.mem_map.mp hmem
    rw [List.mem_range] at hc0
    obtain ⟨he1, he2⟩ := Prod.mk.injEq .. ▸ he
    omega
  · rintro ⟨h1, h2, h3, h4⟩
    refine ⟨r - 1, ?_, List.mem_map.mpr ⟨c - 1, ?_, ?_⟩⟩
    · rw [List.mem_range]; omega
    · rw [List.mem_range]; omega
    · have : r - 1 + 1 = r := by omega
      have hc : c - 1 + 1 = c := by omega
      rw [this, hc]

theorem gridCells_nodup (R C : Nat) : (gridCells R C).Nodup := by
  unfold gridCells
  rw [List.nodup_flatMap]
  constructor
  · intro r _
    refine List.Nodup.map ?_ (List.nodup_range C)
    intro a b hab
    simpa using congrArg Prod.snd hab
  · refine List.Pairwise.imp ?_ (List.nodup_range R)
    intro a b hab x hx1 hx2
    obtain ⟨a0, -, ha⟩ := List.mem_map.mp hx1
    obtain ⟨b0, -, hb⟩ := List.mem_map.mp hx2
    have : a + 1 = b + 1 := by
      have h1 := congrArg Prod.fst ha
      have h2 := congrArg Prod.fst hb
      simp at h1 h2
      omega
    exact hab (by omega)

theorem gridCells_length (R C : Nat) : (gridCells R C).length = R * C := by
  unfold gridCells
  rw [List.length_flatMap]
  have hmap : List.map (List.length ∘ fun r =>
      (List.range C).map fun c => (r + 1, c + 1)) (List.range R) =
      List.map (Function.const Nat C) (List.range R) :=
    List.map_congr_left (by intro a _; simp [Function.const])
  rw [hmap, List.map_const, List.sum_replicate, List.length_range,
    smul_eq_mul]

theorem inGrid_eq_decide_mem (R C : Nat) (s : SeatRow) :
    inGrid R C s = decide ((s.row_num, s.col_num) ∈ gridCells R C) := by
  rw [Bool.eq_iff_iff, decide_eq_true_eq, mem_gridCells]
  unfold inGrid
  rw [Bool.and_eq_true, Bool.and_eq_true, Bool.and_eq_true]
  simp only [decide_eq_true_eq]
  constructor
  · rintro ⟨⟨⟨h1, h2⟩, h3⟩, h4⟩; exact ⟨h1, h2, h3, h4⟩
  · rintro ⟨h1, h2, h3, h4⟩; exact ⟨⟨⟨h1, h2⟩, h3⟩, h4⟩

theorem cellCount_le_one {ss : List SeatRow}
    (h : (ss.map cellKey).Nodup) (L r c : Nat) : cellCount ss L r c ≤ 1 := by
  have he : cellCount ss L r c =
      ss.countP (fun s => cellKey s == (L, r, c)) := by
    unfold cellCount
    refine List.countP_congr ?_
    intro s _
    rw [Bool.and_eq_true, Bool.and_eq_true]
    simp [cellKey, Prod.ext_iff, and_assoc]
  rw [he]
  exact countP_key_le_one h (L, r, c)

theorem foldInsert_prefix_props (layoutId : Nat) (cells : List (Nat × Nat))
    (ss : List SeatRow) (nid : Nat) :
    ∃ ext, (cells.foldl (insertSeatCell layoutId) (ss, nid)).1 = ss ++ ext ∧
      ∀ s ∈ ext, s.seat_layout_id = layoutId ∧ s.is_booked = false ∧
        nid ≤ s.sid ∧ (s.row_num, s.col_num) ∈ cells := by
  induction cells generalizing ss nid with
  | nil =>
    refine ⟨[], (List.append_nil ss).symm, ?_⟩
    intro s hs; cases hs
  | cons c0 cells ih =>
    rw [List.foldl_cons]
    by_cases hocc : (ss.any fun s => s.seat_layout_id == layoutId &&
        s.row_num == c0.1 && s.col_num == c0.2) = true
    · rw [insertSeatCell_occ hocc]
      obtain ⟨ext, he, hp⟩ := ih ss nid
      refine ⟨ext, he, ?_⟩
      intro s hs
      exact ⟨(hp s hs).1, (hp s hs).2.1, (hp s hs).2.2.1,
        List.mem_cons_of_mem _ (hp s hs).2.2.2⟩
    · rw [insertSeatCell_new hocc]
      obtain ⟨ext, he, hp⟩ := ih (ss ++ [newSeat layoutId nid c0]) (nid + 1)
      refine ⟨newSeat layoutId nid c0 :: ext, ?_, ?_⟩
      · rw [he, List.append_assoc]
        rfl
      · intro s hs
        rcases List.mem_cons.mp hs with rfl | hs'
        · refine ⟨rfl, rfl, Nat.le_refl _, ?_⟩
          show (c0.1, c0.2) ∈ c0 :: cells
          rw [Prod.mk.eta]
          exact List.mem_cons_self _ _
        · have hps := hp s hs'
          exact ⟨hps.1, hps.2.1, Nat.le_of_succ_le hps.2.2.1,
            List.mem_cons_of_mem _ hps.2.2.2⟩

theorem foldInsert_count (layoutId : Nat) (cells : List (Nat × Nat))
    (ss : List SeatRow) (nid : Nat) (r c : Nat) :
    cellCount (cells.foldl (insertSeatCell layoutId) (ss, nid)).1
        layoutId r c =
      if (r, c) ∈ cells then max (cellCount ss layoutId r c) 1
      else cellCount ss layoutId r c := by
  induction cells generalizing ss nid with
  | nil => simp
  | cons c0 cells ih =>
    rw [List.foldl_cons]
    by_cases hocc : (ss.any fun s => s.seat_layout_id == layoutId &&
        s.row_num == c0.1 && s.col_num == c0.2) = true
    · rw [insertSeatCell_occ hocc, ih ss nid]
      have hpos : 1 ≤ cellCount ss layoutId c0.1 c0.2 := by
        obtain ⟨s, hs, hp⟩ := List.any_eq_true.mp hocc
        exact List.countP_pos_iff.mpr ⟨s, hs, hp⟩
      by_cases h1 : (r, c) ∈ cells
      · rw [if_pos h1, if_pos (List.mem_cons_of_mem _ h1)]
      · by_cases h2 : (r, c) = c0
        · rw [if_neg h1, if_pos (by rw [h2]; exact List.mem_cons_self _ _)]
          subst h2
          exact (Nat.max_eq_left hpos).symm
        · rw [if_neg h1, if_neg (by
            intro hmem
            rcases List.mem_cons.mp hmem with h | h
            · exact h2 h
            · exact h1 h)]
    · rw [insertSeatCell_new hocc, ih _ _]
      have hzero : cellCount ss layoutId c0.1 c0.2 = 0 := by
        unfold cellCount
        rw [List.countP_eq_zero]
        intro a ha hp
        exact hocc (List.any_eq_true.mpr ⟨a, ha, hp⟩)
      have hnew : ∀ r' c',
          cellCount (ss ++ [newSeat layoutId nid c0]) layoutId r' c' =
            cellCount ss layoutId r' c' +
              (if (r', c') = (c0.1, c0.2) then 1 else 0) := by
        intro r' c'
        unfold cellCount
        rw [List.countP_append]
        congr 1
        rw [List.countP_cons, List.countP_nil]
        by_cases he : (r', c') = (c0.1, c0.2)
        · have h1' : c0.1 = r' := (congrArg Prod.fst he).symm
          have h2' : c0.2 = c' := (congrArg Prod.snd he).symm
          rw [if_pos he, if_pos (by simp [newSeat, h1', h2'])]
        · rw [if_neg he, if_neg (by
            simp only [newSeat, Bool.and_eq_true, beq_iff_eq]
            rintro ⟨⟨-, hr'⟩, hc'⟩
            exact he (by rw [← hr', ← hc']))]
      by_cases h1 : (r, c) ∈ cells
      · rw [if_pos h1, if_pos (List.mem_cons_of_mem _ h1), hnew r c]
        by_cases h2 : (r, c) = (c0.1, c0.2)
        · rw [if_pos h2]
          have h0 : cellCount ss layoutId r c = 0 := by
            have hr : r = c0.1 := congrArg Prod.fst h2
            have hc : c = c0.2 := congrArg Prod.snd h2
            rw [hr, hc, hzero]
          rw [h0]
          decide
        · rw [if_neg h2, Nat.add_zero]
      · by_cases h2 : (r, c) = c0
        · rw [if_neg h1, if_pos (by rw [h2]; exact List.mem_cons_self _ _),
            hnew r c]
          have h2' : (r, c) = (c0.1, c0.2) := by rw [h2, Prod.mk.eta]
          rw [if_pos h2']
          have h0 : cellCount ss layoutId r c = 0 := by
            have hr : r = c0.1 := congrArg Prod.fst h2'
            have hc : c = c0.2 := congrArg Prod.snd h2'
            rw [hr, hc, hzero]
          rw [h0]
          decide
        · rw [if_neg h1, if_neg (by
            intro hmem
            rcases List.mem_cons.mp hmem with h | h
            · exact h2 h
            · exact h1 h), hnew r c]
          rw [if_neg (by
            intro he
            exact h2 (by rw [he, Prod.mk.eta])), Nat.add_zero]

theorem countP_layout_mem_cells (ss : List SeatRow) (L : Nat)
    (cells : List (Nat × Nat)) (hnd : cells.Nodup) :
    ss.countP (fun s => s.seat_layout_id == L &&
      decide ((s.row_num, s.col_num) ∈ cells)) =
      (cells.map fun rc => cellCount ss L rc.1 rc.2).sum := by
  induction cells with
  | nil => simp
  | cons c0 cs ih =>
    rw [List.map_cons, List.sum_cons]
    rw [List.nodup_cons] at hnd
    have hsplit : ss.countP (fun s => s.seat_layout_id == L &&
        decide ((s.row_num, s.col_num) ∈ c0 :: cs)) =
        ss.countP (fun s => (s.seat_layout_id == L &&
          decide ((s.row_num, s.col_num) = c0)) ||
          (s.seat_layout_id == L &&
            decide ((s.row_num, s.col_num) ∈ cs))) := by
      refine List.countP_congr ?_
      intro s _
      simp only [Bool.and_eq_true, Bool.or_eq_true, decide_eq_true_eq,
        List.mem_cons]
      tauto
    rw [hsplit, countP_or_disjoint]
    · congr 1
      · refine List.countP_congr ?_
        intro s _
        unfold cellCount at *
        simp only [Bool.and_eq_true, decide_eq_true_eq, beq_iff_eq,
          Prod.ext_iff]
        tauto
      · exact ih hnd.2
    · rintro a - ⟨h1, h2⟩
      rw [Bool.and_eq_true, decide_eq_true_eq] at h1 h2
      exact hnd.1 (h1.2 ▸ h2.2)

/-- C6 (amended): regenerating a layout with geometry `R × C` yields exactly
one seat of that layout per grid cell; preserves every previously booked
seat verbatim (same id, same flag, wherever it sits — including outside the
new grid); removes every previously unbooked seat of the layout (in-grid
cells reappear only as fresh rows); and therefore produces
`R*C + (number of booked seats of the layout outside the new grid)` seats
for the layout — exactly `R*C` only when no booked seat lies outside. -/
theorem generate_seats_spec {db : DB} {layoutId : Nat} {lay : LayoutRow}
    (hfind : db.seat_layout.find? (fun l => l.lid == layoutId) = some lay)
    (hnd : (db.seats.map SeatRow.sid).Nodup)
    (hbound : ∀ s ∈ db.seats, s.sid < db.nextId)
    (hcell : (db.seats.map cellKey).Nodup) :
    (∀ r c, 1 ≤ r → r ≤ lay.total_rows → 1 ≤ c → c ≤ lay.total_columns →
      cellCount (generate_seats_for_layout db layoutId).seats
        layoutId r c = 1) ∧
    (∀ s ∈ db.seats, s.is_booked = true →
      s ∈ (generate_seats_for_layout db layoutId).seats) ∧
    (∀ s ∈ db.seats, s.seat_layout_id = layoutId → s.is_booked = false →
      ∀ t ∈ (generate_seats_for_layout db layoutId).seats, t.sid ≠ s.sid) ∧
    ((generate_seats_for_layout db layoutId).seats.filter
        (fun s => s.seat_layout_id == layoutId)).length =
      lay.total_rows * lay.total_columns +
        (db.seats.filter fun s => s.seat_layout_id == layoutId &&
          s.is_booked &&
          !(inGrid lay.total_rows lay.total_columns s)).length := by
  have hgen : (generate_seats_for_layout db layoutId).seats =
      ((gridCells lay.total_rows lay.total_columns).foldl
        (insertSeatCell layoutId)
        (db.seats.filter fun s =>
          !(s.seat_layout_id == layoutId) || s.is_booked, db.nextId)).1 := by
    rw [generate_eq hfind]
  obtain ⟨ext, hext, hpext⟩ := foldInsert_prefix_props layoutId
    (gridCells lay.total_rows lay.total_columns)
    (db.seats.filter fun s => !(s.seat_layout_id == layoutId) || s.is_booked)
    db.nextId
  have hkeptcell : ((db.seats.filter fun s =>
      !(s.seat_layout_id == layoutId) || s.is_booked).map cellKey).Nodup :=
    List.Nodup.sublist (List.Sublist.map _ (List.filter_sublist _)) hcell
  refine ⟨?_, ?_, ?_, ?_⟩
  · intro r c h1 h2 h3 h4
    rw [hgen, foldInsert_count]
    rw [if_pos (mem_gridCells.mpr ⟨h1, h2, h3, h4⟩)]
    rcases Nat.le_one_iff_eq_zero_or_eq_one.mp
      (cellCount_le_one hkeptcell layoutId r c) with h0 | h0
    · rw [h0]; decide
    · rw [h0]; decide
  · intro s hs hb
    rw [hgen, hext]
    exact List.mem_append_left _ (List.mem_filter.mpr ⟨hs, by simp [hb]⟩)
  · intro s hs hl hb t ht htsid
    rw [hgen, hext] at ht
    rcases List.mem_append.mp ht with hk | he
    · obtain ⟨htmem, htcond⟩ := List.mem_filter.mp hk
      have hts : t = s := List.inj_on_of_nodup_map hnd htmem hs htsid
      rw [hts, hl, hb] at htcond
      simp at htcond
    · have hge := (hpext t he).2.2.1
      have hlt := hbound s hs
      rw [htsid] at hge
      omega
  · rw [hgen, ← List.countP_eq_length_filter, ← List.countP_eq_length_filter]
    rw [countP_and_split _ _ (inGrid lay.total_rows lay.total_columns)]
    have hA : (((gridCells lay.total_rows lay.total_columns).foldl
        (insertSeatCell layoutId)
        (db.seats.filter fun s =>
          !(s.seat_layout_id == layoutId) || s.is_booked, db.nextId)).1).countP
          (fun s => s.seat_layout_id == layoutId &&
            inGrid lay.total_rows lay.total_columns s) =
        lay.total_rows * lay.total_columns := by
      have hcg : (((gridCells lay.total_rows lay.total_columns).foldl
          (insertSeatCell layoutId)
          (db.seats.filter fun s =>
            !(s.seat_layout_id == layoutId) || s.is_booked, db.nextId)).1).countP
            (fun s => s.seat_layout_id == layoutId &&
              inGrid lay.total_rows lay.total_columns s) =
          (((gridCells lay.total_rows lay.total_columns).foldl
          (insertSeatCell layoutId)
          (db.seats.filter fun s =>
            !(s.seat_layout_id == layoutId) || s.is_booked, db.nextId)).1).countP
            (fun s => s.seat_layout_id == layoutId &&
              decide ((s.row_num, s.col_num) ∈
                gridCells lay.total_rows lay.total_columns)) := by
        refine List.countP_congr ?_
        intro s _
        rw [inGrid_eq_decide_mem]
      rw [hcg, countP_layout_mem_cells _ _ _
        (gridCells_nodup lay.total_rows lay.total_columns)]
      have hone : ((gridCells lay.total_rows lay.total_columns).map
          fun rc => cellCount (((gridCells lay.total_rows
            lay.total_columns).foldl (insertSeatCell layoutId)
            (db.seats.filter fun s =>
              !(s.seat_layout_id == layoutId) || s.is_booked,
             db.nextId)).1) layoutId rc.1 rc.2) =
          (gridCells lay.total_rows lay.total_columns).map
            (Function.const (Nat × Nat) 1) := by
        refine List.map_congr_left ?_
        intro rc hrc
        rw [foldInsert_count]
        rw [if_pos (by rw [Prod.mk.eta]; exact hrc)]
        rcases Nat.le_one_iff_eq_zero_or_eq_one.mp
          (cellCount_le_one hkeptcell layoutId rc.1 rc.2) with h0 | h0
        · rw [h0]; rfl
        · rw [h0]; rfl
      rw [hone, List.map_const, List.sum_replicate, smul_eq_mul,
        gridCells_length, Nat.mul_one]
    have hB : (((gridCells lay.total_rows lay.total_columns).foldl
        (insertSeatCell layoutId)
        (db.seats.filter fun s =>
          !(s.seat_layout_id == layoutId) || s.is_booked, db.nextId)).1).countP
          (fun s => s.seat_layout_id == layoutId &&
            !(inGrid lay.total_rows lay.total_columns s)) =
        db.seats.countP (fun s => s.seat_layout_id == layoutId &&
          s.is_booked && !(inGrid lay.total_rows lay.total_columns s)) := by
      rw [hext, List.countP_append]
      have hextz : ext.countP (fun s => s.seat_layout_id == layoutId &&
          !(inGrid lay.total_rows lay.total_columns s)) = 0 := by
        rw [List.countP_eq_zero]
        intro s hs hp
        have hmem := (hpext s hs).2.2.2
        rw [Bool.and_eq_true] at hp
        have hgrid : inGrid lay.total_rows lay.total_columns s = true := by
          rw [inGrid_eq_decide_mem, decide_eq_true_eq]
          exact hmem
        rw [hgrid] at hp
        simp at hp
      rw [hextz, Nat.add_zero, List.countP_filter]
      refine List.countP_congr ?_
      intro s _
      cases hA' : (s.seat_layout_id == layoutId) <;>
        cases hB' : s.is_booked <;>
        cases hG' : inGrid lay.total_rows lay.total_columns s <;>
        simp [hA', hB', hG']
    rw [hA, hB, List.countP_eq_length_filter]

/-! ## Characterizations of the provisioning handler -/

theorem add_user_handler_none_auth (d : ProvDB) (rlf : Bool)
    (em ut : Option (List Char)) (rl : Option AppRole) :
    add_user_handler d ⟨none, rlf, em, ut, rl⟩ = ⟨401, d⟩ := rfl

theorem add_user_handler_some_auth (d : ProvDB) (c : Nat) (rlf : Bool)
    (em ut : Option (List Char)) (rl : Option AppRole) :
    add_user_handler d ⟨some c, rlf, em, ut, rl⟩ =
      match (if rlf then none
             else d.user_roles.find? fun x =>
               x.user_id == c && decide (x.role = AppRole.admin)) with
      | none => ⟨403, d⟩
      | some _ =>
        if strFalsy em || strFalsy ut then ⟨400, d⟩
        else
          match createUser d ((em.getD []).map Char.toLower)
              (ut.getD []) with
          | none => ⟨500, d⟩
          | some (uid, d1) =>
            ⟨200, insertUserRole
              (insertAllowedUser d1 ((em.getD []).map Char.toLower)
                (ut.getD []))
              uid (rl.getD AppRole.user)⟩ := rfl

theorem insertAllowedUser_auth (d : ProvDB) (em ut : List Char) :
    (insertAllowedUser d em ut).auth_users = d.auth_users := by
  unfold insertAllowedUser
  split <;> rfl

theorem insertUserRole_auth (d : ProvDB) (uid : Nat) (r : AppRole) :
    (insertUserRole d uid r).auth_users = d.auth_users := by
  unfold insertUserRole
  split <;> rfl

theorem insertUserRole_allowed (d : ProvDB) (uid : Nat) (r : AppRole) :
    (insertUserRole d uid r).allowed_users = d.allowed_users := by
  unfold insertUserRole
  split <;> rfl

theorem insertAllowedUser_cases (d : ProvDB) (em ut : List Char) :
    (insertAllowedUser d em ut).allowed_users = d.allowed_users ∨
    ((∀ a ∈ d.allowed_users, a.uti ≠ ut) ∧
      (insertAllowedUser d em ut).allowed_users =
        d.allowed_users ++ [⟨em, ut⟩]) := by
  unfold insertAllowedUser
  split
  · exact Or.inl rfl
  next h =>
    refine Or.inr ⟨?_, rfl⟩
    intro a ha he
    exact h (List.any_eq_true.mpr ⟨a, ha, by simp [he]⟩)

theorem createUser_allowed {d : ProvDB} {em pw : List Char} {uid : Nat}
    {d1 : ProvDB} (h : createUser d em pw = some (uid, d1)) :
    d1.allowed_users = d.allowed_users := by
  unfold createUser at h
  split at h
  · cases h
  · obtain ⟨-, h2⟩ := Prod.mk.injEq .. ▸ Option.some.inj h
    rw [← h2]

theorem createUser_eq_some {d : ProvDB} {em pw : List Char}
    (h : ∀ u ∈ d.auth_users, u.email ≠ em) :
    createUser d em pw = some (d.nextUid,
      { d with
        auth_users := d.auth_users ++
          [⟨d.nextUid, em, pw, true⟩],
        nextUid := d.nextUid + 1 }) := by
  unfold createUser
  rw [if_neg]
  intro hc
  obtain ⟨u, hu, he⟩ := List.any_eq_true.mp hc
  exact h u hu (by simpa using he)

theorem add_user_success_eq {d : ProvDB} {req : ProvRequest} {c : Nat}
    (hc : req.authUser = some c) (hf : req.roleLookupFails = false)
    (hadmin : ∃ x ∈ d.user_roles, x.user_id = c ∧ x.role = AppRole.admin)
    (hem : strFalsy req.email = false) (hut : strFalsy req.uti = false)
    (hfresh : ∀ u ∈ d.auth_users,
      u.email ≠ (req.email.getD []).map Char.toLower) :
    add_user_handler d req =
      ⟨200, insertUserRole
        (insertAllowedUser
          { d with
            auth_users := d.auth_users ++
              [⟨d.nextUid, (req.email.getD []).map Char.toLower,
                req.uti.getD [], true⟩],
            nextUid := d.nextUid + 1 }
          ((req.email.getD []).map Char.toLower) (req.uti.getD []))
        d.nextUid (req.role.getD AppRole.user)⟩ := by
  obtain ⟨au, rlf, em, ut, rl⟩ := req
  subst hc
  subst hf
  rw [add_user_handler_some_auth]
  obtain ⟨x0, hx0, hx0p⟩ := hadmin
  cases hfind : d.user_roles.find? (fun x => x.user_id == c &&
      decide (x.role = AppRole.admin)) with
  | none =>
    rw [List.find?_eq_none] at hfind
    exact absurd (by
      rw [Bool.and_eq_true, beq_iff_eq, decide_eq_true_eq]
      exact ⟨hx0p.1, hx0p.2⟩) (hfind x0 hx0)
  | some y =>
    have h1 : (if (false : Bool) then none else some y) = some y := rfl
    rw [h1]
    have hcond : (strFalsy em || strFalsy ut) = false := by
      rw [show strFalsy em = false from hem, show strFalsy ut = false from hut]
      rfl
    simp only [hcond, Bool.false_eq_true, if_false]
    rw [createUser_eq_some hfresh]

/-! ## Claim theorems: the provisioning endpoint -/

/-- C7: an unauthenticated provisioning request gets 401; an authenticated
one whose admin-role lookup errors or returns no row gets 403 (a failed
lookup is treated as "not admin", never as a grant); an admin request with
a missing (falsy) email or secret gets 400 — and in all three cases the
store is returned unchanged: no identity, allow-list, or role row is
created. -/
theorem add_user_rejections (d : ProvDB) (req : ProvRequest) :
    (req.authUser = none → add_user_handler d req = ⟨401, d⟩) ∧
    (∀ c, req.authUser = some c →
      (req.roleLookupFails = true ∨
        ∀ x ∈ d.user_roles, ¬(x.user_id = c ∧ x.role = AppRole.admin)) →
      add_user_handler d req = ⟨403, d⟩) ∧
    (∀ c, req.authUser = some c → req.roleLookupFails = false →
      (∃ x ∈ d.user_roles, x.user_id = c ∧ x.role = AppRole.admin) →
      (strFalsy req.email = true ∨ strFalsy req.uti = true) →
      add_user_handler d req = ⟨400, d⟩) := by
  obtain ⟨au, rlf, em, ut, rl⟩ := req
  refine ⟨?_, ?_, ?_⟩
  · intro h
    subst h
    rfl
  · intro c hc hrole
    subst hc
    rw [add_user_handler_some_auth]
    have hnone : (if rlf then none
        else d.user_roles.find? fun x =>
          x.user_id == c && decide (x.role = AppRole.admin)) = none := by
      by_cases hf : rlf = true
      · rw [if_pos hf]
      · rcases hrole with h | h
        · exact absurd h hf
        · rw [if_neg hf, List.find?_eq_none]
          intro x hx hcontr
          rw [Bool.and_eq_true, beq_iff_eq, decide_eq_true_eq] at hcontr
          exact h x hx ⟨hcontr.1, hcontr.2⟩
    rw [hnone]
  · intro c hc hf hadmin hfalsy
    subst hc
    subst hf
    rw [add_user_handler_some_auth]
    obtain ⟨x0, hx0, hx0p⟩ := hadmin
    cases hfind : d.user_roles.find? (fun x => x.user_id == c &&
        decide (x.role = AppRole.admin)) with
    | none =>
      rw [List.find?_eq_none] at hfind
      exact absurd (by
        rw [Bool.and_eq_true, beq_iff_eq, decide_eq_true_eq]
        exact ⟨hx0p.1, hx0p.2⟩) (hfind x0 hx0)
    | some y =>
      have h1 : (if (false : Bool) then none else some y) = some y := rfl
      rw [h1]
      have hcond : (strFalsy em || strFalsy ut) = true := by
        rcases hfalsy with h | h
        · rw [show strFalsy em = true from h]
          rfl
        · rw [show strFalsy ut = true from h, Bool.or_true]
      simp only [hcond, if_true]

/-- Witness for C7: the three rejection modes on a concrete store. -/
theorem add_user_rejections_witness :
    add_user_handler pdb0 ⟨none, false, some "a@b.c".toList,
      some "x".toList, none⟩ = ⟨401, pdb0⟩ ∧
    add_user_handler pdb0 ⟨some 2, false, some "a@b.c".toList,
      some "x".toList, none⟩ = ⟨403, pdb0⟩ ∧
    add_user_handler pdb0 ⟨some 1, false, none, some "x".toList, none⟩ =
      ⟨400, pdb0⟩ :=
  ⟨(add_user_rejections pdb0 _).1 rfl,
   (add_user_rejections pdb0 _).2.1 2 rfl (Or.inr (by decide)),
   (add_user_rejections pdb0 _).2.2 1 rfl rfl (by decide) (Or.inl rfl)⟩

/-- Counterexample to C8 as stated: the handler lower-cases the email but
never trims it.  For the input `"  ADMIN@X.COM  "` the created identity and
the allow-list row both store `"  admin@x.com  "` — with its surrounding
whitespace — which differs from the lower-cased, trimmed form the claim
prescribes. -/
theorem email_not_trimmed_counterexample :
    ((add_user_handler pdb0 ⟨some 1, false, some "  ADMIN@X.COM  ".toList,
        some "pw1".toList, none⟩).db.auth_users.map AuthUser.email) =
      ["  admin@x.com  ".toList] ∧
    ((add_user_handler pdb0 ⟨some 1, false, some "  ADMIN@X.COM  ".toList,
        some "pw1".toList, none⟩).db.allowed_users.map
        AllowedUserRow.email) = ["  admin@x.com  ".toList] ∧
    "  admin@x.com  ".toList ≠
      spec_normalize_email "  ADMIN@X.COM  ".toList := by
  refine ⟨by decide, by decide, by decide⟩

/-- C8 (amended): the handler case-normalizes the email by lower-casing
only — no trimming — before lookup and storage: on the success path the
created identity stores `email.map Char.toLower` verbatim, and the
allow-list row (when its insert does not hit a unique conflict) stores the
same lower-cased, untrimmed form. -/
theorem email_lowercased_untrimmed {d : ProvDB} {req : ProvRequest}
    {c : Nat}
    (hc : req.authUser = some c) (hf : req.roleLookupFails = false)
    (hadmin : ∃ x ∈ d.user_roles, x.user_id = c ∧ x.role = AppRole.admin)
    (hem : strFalsy req.email = false) (hut : strFalsy req.uti = false)
    (hfresh : ∀ u ∈ d.auth_users,
      u.email ≠ (req.email.getD []).map Char.toLower) :
    (add_user_handler d req).db.auth_users =
      d.auth_users ++ [⟨d.nextUid, (req.email.getD []).map Char.toLower,
        req.uti.getD [], true⟩] ∧
    ((add_user_handler d req).db.allowed_users = d.allowed_users ∨
      (add_user_handler d req).db.allowed_users = d.allowed_users ++
        [⟨(req.email.getD []).map Char.toLower, req.uti.getD []⟩]) := by
  rw [add_user_success_eq hc hf hadmin hem hut hfresh]
  constructor
  · rw [insertUserRole_auth, insertAllowedUser_auth]
  · rw [insertUserRole_allowed]
    rcases insertAllowedUser_cases
      { d with
        auth_users := d.auth_users ++
          [⟨d.nextUid, (req.email.getD []).map Char.toLower,
            req.uti.getD [], true⟩],
        nextUid := d.nextUid + 1 }
      ((req.email.getD []).map Char.toLower) (req.uti.getD [])
      with h | ⟨-, h⟩
    · exact Or.inl h
    · exact Or.inr h

/-- Witness for C8 (amended) at a concrete request. -/
theorem email_lowercased_untrimmed_witness :
    (add_user_handler pdb0 ⟨some 1, false, some "  ADMIN@X.COM  ".toList,
        some "pw1".toList, none⟩).db.auth_users =
      pdb0.auth_users ++ [⟨pdb0.nextUid,
        ((some "  ADMIN@X.COM  ".toList).getD []).map Char.toLower,
        (some "pw1".toList).getD [], true⟩] ∧
    ((add_user_handler pdb0 ⟨some 1, false, some "  ADMIN@X.COM  ".toList,
        some "pw1".toList, none⟩).db.allowed_users = pdb0.allowed_users ∨
      (add_user_handler pdb0 ⟨some 1, false, some "  ADMIN@X.COM  ".toList,
        some "pw1".toList, none⟩).db.allowed_users =
        pdb0.allowed_users ++
          [⟨((some "  ADMIN@X.COM  ".toList).getD []).map Char.toLower,
            (some "pw1".toList).getD []⟩]) :=
  email_lowercased_untrimmed rfl rfl (by decide) (by decide) (by decide)
    (by decide)

/-- C9: once the identity-creation step succeeds, the handler returns
`200 {success: true}` no matter whether the subsequent allow-list or role
inserts succeed — their errors are never inspected — so a partial-effect
state (identity created, allow-list or role row missing) is reported as
success rather than as a 500. -/
theorem add_user_partial_success {d : ProvDB} {req : ProvRequest} {c : Nat}
    (hc : req.authUser = some c) (hf : req.roleLookupFails = false)
    (hadmin : ∃ x ∈ d.user_roles, x.user_id = c ∧ x.role = AppRole.admin)
    (hem : strFalsy req.email = false) (hut : strFalsy req.uti = false)
    (hfresh : ∀ u ∈ d.auth_users,
      u.email ≠ (req.email.getD []).map Char.toLower) :
    (add_user_handler d req).status = 200 ∧
    (add_user_handler d req).db.auth_users =
      d.auth_users ++ [⟨d.nextUid, (req.email.getD []).map Char.toLower,
        req.uti.getD [], true⟩] := by
  rw [add_user_success_eq hc hf hadmin hem hut hfresh]
  exact ⟨rfl, by rw [insertUserRole_auth, insertAllowedUser_auth]⟩

/-- Witness for C9: in `pdb9` the requested secret "s3cret" already occupies
the allow-list's UNIQUE `uti` column, so the allow-list insert fails — yet
the handler answers 200 and the identity exists with no allow-list row. -/
theorem add_user_partial_success_witness :
    (add_user_handler pdb9 ⟨some 1, false, some "new@x.com".toList,
        some "s3cret".toList, none⟩).status = 200 ∧
    (add_user_handler pdb9 ⟨some 1, false, some "new@x.com".toList,
        some "s3cret".toList, none⟩).db.auth_users =
      pdb9.auth_users ++ [⟨pdb9.nextUid,
        ((some "new@x.com".toList).getD []).map Char.toLower,
        (some "s3cret".toList).getD [], true⟩] ∧
    (add_user_handler pdb9 ⟨some 1, false, some "new@x.com".toList,
        some "s3cret".toList, none⟩).db.allowed_users =
      pdb9.allowed_users :=
  ⟨(add_user_partial_success rfl rfl (by decide) (by decide) (by decide)
      (by decide)).1,
   (add_user_partial_success rfl rfl (by decide) (by decide) (by decide)
      (by decide)).2,
   by decide⟩

theorem handler_allowed_users_cases (d : ProvDB) (req : ProvRequest) :
    (add_user_handler d req).db.allowed_users = d.allowed_users ∨
    ∃ em ut, (∀ a ∈ d.allowed_users, a.uti ≠ ut) ∧
      (add_user_handler d req).db.allowed_users =
        d.allowed_users ++ [⟨em, ut⟩] := by
  obtain ⟨au, rlf, em, ut, rl⟩ := req
  cases au with
  | none => exact Or.inl rfl
  | some c =>
    cases hrd : (if rlf then none else d.user_roles.find? fun x =>
        x.user_id == c && decide (x.role = AppRole.admin)) with
    | none =>
      have he : add_user_handler d ⟨some c, rlf, em, ut, rl⟩ =
          ⟨403, d⟩ := by
        rw [add_user_handler_some_auth, hrd]
      rw [he]
      exact Or.inl rfl
    | some y =>
      by_cases hsf : (strFalsy em || strFalsy ut) = true
      · have he : add_user_handler d ⟨some c, rlf, em, ut, rl⟩ =
            ⟨400, d⟩ := by
          rw [add_user_handler_some_auth, hrd]
          simp only [hsf, if_true]
        rw [he]
        exact Or.inl rfl
      · have hsf' : (strFalsy em || strFalsy ut) = false := by
          cases h2 : (strFalsy em || strFalsy ut)
          · rfl
          · exact absurd h2 hsf
        cases hcu : createUser d ((em.getD []).map Char.toLower)
            (ut.getD []) with
        | none =>
          have he : add_user_handler d ⟨some c, rlf, em, ut, rl⟩ =
              ⟨500, d⟩ := by
            rw [add_user_handler_some_auth, hrd]
            simp only [hsf', Bool.false_eq_true, if_false]
            rw [hcu]
          rw [he]
          exact Or.inl rfl
        | some p =>
          obtain ⟨uid, d1⟩ := p
          have he : add_user_handler d ⟨some c, rlf, em, ut, rl⟩ =
              ⟨200, insertUserRole (insertAllowedUser d1
                ((em.getD []).map Char.toLower) (ut.getD [])) uid
                (rl.getD AppRole.user)⟩ := by
            rw [add_user_handler_some_auth, hrd]
            simp only [hsf', Bool.false_eq_true, if_false]
            rw [hcu]
          rw [he]
          have hd1 : d1.allowed_users = d.allowed_users :=
            createUser_allowed hcu
          rcases insertAllowedUser_cases d1
              ((em.getD []).map Char.toLower) (ut.getD [])
            with h | ⟨hfr, h⟩
          · refine Or.inl ?_
            show (insertUserRole _ _ _).allowed_users = _
            rw [insertUserRole_allowed, h, hd1]
          · refine Or.inr ⟨(em.getD []).map Char.toLower, ut.getD [],
              ?_, ?_⟩
            · intro a ha
              exact hfr a (by rw [hd1]; exact ha)
            · show (insertUserRole _ _ _).allowed_users = _
              rw [insertUserRole_allowed, h, hd1]

/-- C10: the allow-list secret (`uti`) column is UNIQUE: in every store
reachable through the provisioning endpoint no two allow-list rows share a
secret, and an insert that reuses an existing secret adds no row — a
constraint the schema declares beyond the spec's `email` uniqueness. -/
theorem allowed_uti_unique :
    (∀ d, ProvReachable d →
      (d.allowed_users.map AllowedUserRow.uti).Nodup) ∧
    (∀ (d : ProvDB) (em ut : List Char),
      (∃ a ∈ d.allowed_users, a.uti = ut) →
      insertAllowedUser d em ut = d) := by
  constructor
  · intro d h
    induction h with
    | init h0 => exact h0
    | step _ hstep ih =>
      cases hstep with
      | handle req =>
        rcases handler_allowed_users_cases _ req with h | ⟨em, ut, hfr, h⟩
        · rw [h]; exact ih
        · rw [h, List.map_append, List.nodup_append]
          refine ⟨ih, List.nodup_singleton _, ?_⟩
          intro x hx hx'
          obtain ⟨a, ha, rfl⟩ := List.mem_map.mp hx
          have hau : a.uti = ut := by simpa using hx'
          exact hfr a ha hau
  · intro d em ut h
    unfold insertAllowedUser
    rw [if_pos]
    obtain ⟨a, ha, he⟩ := h
    exact List.any_eq_true.mpr ⟨a, ha, by simp [he]⟩

/-- Witness for C10 at a concrete store with one allow-list row. -/
theorem allowed_uti_unique_witness :
    (pdb9.allowed_users.map AllowedUserRow.uti).Nodup ∧
    insertAllowedUser pdb9 "e@f.g".toList "s3cret".toList = pdb9 :=
  ⟨allowed_uti_unique.1 pdb9 (ProvReachable.init (by decide)),
   allowed_uti_unique.2 pdb9 "e@f.g".toList "s3cret".toList (by decide)⟩

/-- Witness for C6 (amended) on the concrete store `dbG0`: the single grid
cell holds exactly one seat, the booked out-of-grid seat survives verbatim,
the unbooked in-grid seat's id is gone, and the layout ends up with
`1*1 + 1` seats. -/
theorem generate_seats_spec_witness :
    cellCount (generate_seats_for_layout dbG0 0).seats 0 1 1 = 1 ∧
    (⟨5, 0, 2, 2, true⟩ : SeatRow) ∈
      (generate_seats_for_layout dbG0 0).seats ∧
    (⟨6, 0, 1, 1, false⟩ : SeatRow).sid ≠ 3 ∧
    ((generate_seats_for_layout dbG0 0).seats.filter
        (fun s => s.seat_layout_id == 0)).length =
      1 * 1 + (dbG0.seats.filter fun s => s.seat_layout_id == 0 &&
        s.is_booked && !(inGrid 1 1 s)).length := by
  have h := @generate_seats_spec dbG0 0 ⟨0, 1, 1⟩ (by decide) (by decide)
    (by decide) (by decide)
  exact ⟨h.1 1 1 (by decide) (by decide) (by decide) (by decide),
    h.2.1 ⟨5, 0, 2, 2, true⟩ (by decide) rfl,
    h.2.2.1 ⟨3, 0, 1, 1, false⟩ (by decide) rfl rfl ⟨6, 0, 1, 1, false⟩
      (by decide),
    h.2.2.2⟩

/-- Counterexample to C6 as stated.  In `dbG0` the layout is 1×1 while a
booked seat sits at the out-of-grid cell (2,2): regeneration keeps it, so
the layout ends up with 2 seats, not `R*C = 1`; moreover the unbooked seat
with id 3 is removed even though its cell (1,1) lies inside the new grid,
refuting "removes exactly those unbooked seats not in the new R×C grid". -/
theorem generate_seats_count_counterexample :
    ¬ (((generate_seats_for_layout dbG0 0).seats.filter
        (fun s => s.seat_layout_id == 0)).length = 1 * 1) ∧
    ((generate_seats_for_layout dbG0 0).seats.filter
        (fun s => s.seat_layout_id == 0)).length = 2 ∧
    ((⟨3, 0, 1, 1, false⟩ : SeatRow) ∈ dbG0.seats ∧
      (⟨3, 0, 1, 1, false⟩ : SeatRow).is_booked = false ∧
      inGrid 1 1 ⟨3, 0, 1, 1, false⟩ = true ∧
      ∀ s ∈ (generate_seats_for_layout dbG0 0).seats, s.sid ≠ 3) := by
  decide
